import Mathlib

/-! ZTerminal (Linux backend): shallow embedding of `src/Tui/ZTerminal_linux.cpp`.

The embedding follows the C++ source function by function.  The operating
system and the terminal protocol engine (termpaint) are the environment:

* the result of every `write(2)` call on a valid descriptor is chosen by an
  oracle `Env.writeResult`, indexed by the number of write calls issued so far;
* the callbacks the protocol engine performs on the integration table are
  given by `Env.engine`.

Loops that may spin forever in the C++ code carry a fuel argument (an upper
bound on the number of iterations); `none` means the fuel ran out.
-/

namespace Tui

/-! ## Bytes, errno values and write results -/

/-- One `char` of output. -/
abbrev Byte := Nat

/-- The errno values `integration_write_uncached` distinguishes; every other
value is `other code`. -/
inductive Errno where
  | EAGAIN
  | EWOULDBLOCK
  | EIO
  | ENOSPC
  | EBADF
  | EINVAL
  | EPIPE
  | EINTR
  | other (code : Nat)
  deriving DecidableEq

/-- What one `write(fd, buf, count)` call does on a valid descriptor.
`ret n`: the kernel takes `min n count` bytes and returns that number
(errno is left alone); `fail e`: the call returns `-1` and sets errno to `e`. -/
inductive WriteResult where
  | ret (n : Nat)
  | fail (e : Errno)
  deriving DecidableEq

/-! ## Line-discipline attributes (`struct termios`) -/

/-- Size of the `c_cc` array. -/
abbrev NCCS : Nat := 32

/-- The `struct termios` of `<termios.h>`; `tcflag_t` words are 32-bit masks. -/
structure Termios where
  c_iflag : Nat
  c_oflag : Nat
  c_cflag : Nat
  c_lflag : Nat
  c_line : Nat
  c_cc : Fin NCCS → Nat
  c_ispeed : Nat
  c_ospeed : Nat

/-- A zero-filled `struct termios` (static storage before its first assignment). -/
def Termios.zero : Termios :=
  { c_iflag := 0, c_oflag := 0, c_cflag := 0, c_lflag := 0, c_line := 0,
    c_cc := fun _ => 0, c_ispeed := 0, c_ospeed := 0 }

/-! ## State -/

/-- What a descriptor number refers to. -/
inductive FdState where
  | closed
  | tty (dev : Nat)
  | file
  deriving DecidableEq

/-- Signals for which `commonStuff` installs synchronous handlers. -/
inductive Signal where
  | SIGTSTP
  | SIGTTIN
  | SIGTTOU
  | SIGCONT
  | termination
  | crash
  deriving DecidableEq

/-- The three static handler functions of the signal part. -/
inductive Handler where
  | restoreSystemHandler
  | suspendHandler
  | resumeHandler
  deriving DecidableEq

/-- The operating system and the file-static variables of the translation unit. -/
structure World where
  /-- descriptor table: entry `i` is descriptor `i` -/
  fds : List FdState
  /-- current line-discipline attributes of every terminal device -/
  termAttrs : Nat → Termios
  /-- window size (columns, rows) reported by `TIOCGWINSZ`, if any -/
  winsize : Nat → Option (Nat × Nat)
  /-- the device `/dev/tty` refers to, if the process has a controlling terminal -/
  ctty : Option Nat
  /-- number of `write(2)` calls issued so far -/
  writeCalls : Nat
  /-- the bytes accepted by `write(2)`, in order -/
  wire : List Byte
  /-- number of protocol engine instances created so far -/
  engines : Nat
  systemRestoreInited : Bool
  systemRestoreFd : Int
  systemOriginalTerminalAttributes : Termios
  /-- `nullptr` is `none` -/
  systemRestoreEscape : Option (List Byte)
  systemPresuspendTerminalAttributes : Termios
  /-- synchronous handlers registered with the signal manager, in registration order -/
  syncHandlers : List (Signal × Handler)
  systemTerminalResumeNotifier : Bool
  systemTerminalSizeChangeNotifier : Bool
  /-- the `QPointer<ZTerminal>`; sessions are identified by `ZTerminalPrivate.pub` -/
  systemTerminal : Option Nat

/-- Modelled from the spec: the class `ZTerminalPrivate` is declared in
`ZTerminal_p.h`, which is not among the sources at hand.  The fields are the
ones the member functions of `ZTerminal_linux.cpp` read and write, which are
the parts of the spec's `TerminalSession`: file descriptor, ownership flag,
snapshot of the original attributes, output buffer, engine handle,
pending-callback flag and timers. -/
structure ZTerminalPrivate where
  /-- identity of the owning `ZTerminal` object, what `pub()` returns -/
  pub : Nat
  fd : Int
  auto_close : Bool
  originalTerminalAttributes : Termios
  output_buffer : List Byte
  /-- the `termpaint_terminal*`; `nullptr` is `none` -/
  terminal : Option Nat
  /-- size of the engine surface, once it has been resized -/
  surface : Option (Nat × Nat)
  callbackRequested : Bool
  /-- whether `callbackTimer` is single-shot -/
  callbackTimerSingleShot : Bool
  /-- remaining interval when `callbackTimer` is running -/
  callbackTimer : Option Nat
  /-- remaining interval when `autoDetectTimeoutTimer` exists and is running -/
  autoDetectTimeoutTimer : Option Nat
  /-- descriptor watched by `inputNotifier`, once created -/
  inputNotifier : Option Int
  /-- raw input filter and event callbacks are installed on the engine -/
  engineCallbacksSet : Bool

/-- One call of the protocol engine into the integration table. -/
inductive IntegrationCall where
  | write (data : List Byte)
  | flush
  | request_callback
  | is_bad
  deriving DecidableEq

/-- The protocol engine (termpaint) as seen by this file: the integration
callbacks each entry point performs, and the restore sequence it reports. -/
structure Engine where
  /-- callbacks performed by `termpaint_terminal_auto_detect` -/
  auto_detect : List IntegrationCall
  /-- callbacks performed by `termpaint_terminal_reset_attributes` -/
  reset_attributes : List IntegrationCall
  /-- callbacks performed by `termpaint_terminal_free_with_restore` before it
  releases the integration through its `free` callback -/
  free_with_restore : List IntegrationCall
  /-- result of `termpaint_terminal_restore_sequence` -/
  restore_sequence : List Byte

/-- The environment of a run. -/
structure Env where
  /-- outcome of the `i`-th `write(2)` call when it is made on a descriptor other than `-1` -/
  writeResult : Nat → WriteResult
  engine : Engine

/-! ## Output path -/

/-- `write(fd, ...)`: descriptor `-1` is never valid and fails with `EBADF`;
otherwise the environment decides. -/
def sysWrite (env : Env) (fd : Int) (w : World) : WriteResult :=
  if fd = -1 then WriteResult.fail Errno.EBADF else env.writeResult w.writeCalls

/-- The world after `k` more `write(2)` calls that put `bytes` on the wire. -/
def World.afterWrites (w : World) (k : Nat) (bytes : List Byte) : World :=
  { w with writeCalls := w.writeCalls + k, wire := w.wire ++ bytes }

/-- The `while (written != length)` loop of `integration_write_uncached`.
`errno` is `none` for `0`. -/
def writeLoop (env : Env) (data : List Byte) :
    Nat → World → ZTerminalPrivate → Nat → Option Errno → Option (World × ZTerminalPrivate)
  | 0, w, s, written, _ => if written ≠ data.length then none else some (w, s)
  | fuel + 1, w, s, written, errno =>
    if written ≠ data.length then
      let res := sysWrite env s.fd w
      let accepted : Nat :=
        match res with
        | WriteResult.ret n => min n (data.length - written)
        | WriteResult.fail _ => 0
      let ret : Int :=
        match res with
        | WriteResult.ret _ => (accepted : Int)
        | WriteResult.fail _ => -1
      let errno1 : Option Errno :=
        match res with
        | WriteResult.ret _ => errno
        | WriteResult.fail e => some e
      let w1 : World := w.afterWrites 1 ((data.drop written).take accepted)
      if ret > 0 then
        writeLoop env data fuel w1 s (written + accepted) errno1
      else if errno1 = some Errno.EAGAIN ∨ errno1 = some Errno.EWOULDBLOCK then
        some (w1, { s with fd := -1 })
      else if errno1 = some Errno.EIO ∨ errno1 = some Errno.ENOSPC then
        some (w1, { s with fd := -1 })
      else if errno1 = some Errno.EBADF ∨ errno1 = some Errno.EINVAL
          ∨ errno1 = some Errno.EPIPE then
        some (w1, { s with fd := -1 })
      else if errno1 = some Errno.EINTR then
        writeLoop env data fuel w1 s written errno1
      else
        writeLoop env data fuel w1 s written errno1
    else some (w, s)

/-- `ZTerminalPrivate::integration_write_uncached` -/
def integration_write_uncached (env : Env) (fuel : Nat) (data : List Byte)
    (w : World) (s : ZTerminalPrivate) : Option (World × ZTerminalPrivate) :=
  writeLoop env data fuel w s 0 none

/-- `ZTerminalPrivate::integration_flush` -/
def integration_flush (env : Env) (fuel : Nat) (w : World) (s : ZTerminalPrivate) :
    Option (World × ZTerminalPrivate) :=
  match integration_write_uncached env fuel s.output_buffer w s with
  | none => none
  | some (w1, s1) => some (w1, { s1 with output_buffer := [] })

/-- `ZTerminalPrivate::integration_write` -/
def integration_write (env : Env) (fuel : Nat) (data : List Byte)
    (w : World) (s : ZTerminalPrivate) : Option (World × ZTerminalPrivate) :=
  let s1 : ZTerminalPrivate := { s with output_buffer := s.output_buffer ++ data }
  if s1.output_buffer.length > 512 then
    integration_flush env fuel w s1
  else some (w, s1)

/-- `ZTerminalPrivate::integration_is_bad` -/
def integration_is_bad (s : ZTerminalPrivate) : Bool :=
  decide (s.fd = -1)

/-- `ZTerminalPrivate::integration_request_callback` -/
def integration_request_callback (s : ZTerminalPrivate) : ZTerminalPrivate :=
  { s with callbackRequested := true }

/-! ## Terminal attributes: constants and raw mode -/

/-- Interpretation of the `c_iflag` bits (`<bits/termios.h>`, Linux). -/
def IGNBRK : Nat := 0o1
def BRKINT : Nat := 0o2
def IGNPAR : Nat := 0o4
def PARMRK : Nat := 0o10
def INPCK : Nat := 0o20
def ISTRIP : Nat := 0o40
def INLCR : Nat := 0o100
def IGNCR : Nat := 0o200
def ICRNL : Nat := 0o400
def IXON : Nat := 0o2000
def IXOFF : Nat := 0o10000

/-- Interpretation of the `c_oflag` bits. -/
def OPOST : Nat := 0o1
def ONLCR : Nat := 0o4
def OCRNL : Nat := 0o10
def ONOCR : Nat := 0o20
def ONLRET : Nat := 0o40

/-- Interpretation of the `c_lflag` bits. -/
def ISIG : Nat := 0o1
def ICANON : Nat := 0o2
def ECHO : Nat := 0o10
def IEXTEN : Nat := 0o100000

/-- Indices into `c_cc`. -/
def VINTR : Fin NCCS := 0
def VQUIT : Fin NCCS := 1
def VTIME : Fin NCCS := 5
def VMIN : Fin NCCS := 6
def VSUSP : Fin NCCS := 10

/-- The C expression `x & ~m` on a 32-bit `tcflag_t`. -/
def clearBits (x m : Nat) : Nat := x &&& (0xFFFFFFFF ^^^ m)

/-- Modelled from the spec: `ZTerminal::Options` is a `QFlags` set over the
`ZTerminal::Option` enumeration, which is declared in `ZTerminal.h` (not part
of the sources at hand).  Each option is one bit of the mask, so the mask is
a record of independent booleans; `others` holds the bits of the options
this file never tests. -/
structure Options where
  AllowInterrupt : Bool
  AllowSuspend : Bool
  AllowQuit : Bool
  DisableAutoResize : Bool
  DisableAutoDetectTimeoutMessage : Bool
  others : Nat

/-- The attributes `commonStuff` hands to `tcsetattr`, computed from the
attributes `tcgetattr` returned (`tattr`) and the options. -/
def rawAttributes (options : Options) (tattr : Termios) : Termios :=
  let t1 : Termios := { tattr with c_iflag := tattr.c_iflag ||| (IGNBRK ||| IGNPAR) }
  let inputMask : Nat :=
    BRKINT ||| PARMRK ||| ISTRIP ||| INLCR ||| IGNCR ||| ICRNL ||| IXON ||| IXOFF
  let t2 : Termios := { t1 with c_iflag := clearBits t1.c_iflag inputMask }
  let t3 : Termios :=
    { t2 with c_oflag := clearBits t2.c_oflag (OPOST ||| ONLCR ||| OCRNL ||| ONOCR ||| ONLRET) }
  let t4 : Termios := { t3 with c_lflag := clearBits t3.c_lflag (ICANON ||| IEXTEN ||| ECHO) }
  let t5 : Termios := { t4 with c_cc := Function.update t4.c_cc VMIN 1 }
  let t6 : Termios := { t5 with c_cc := Function.update t5.c_cc VTIME 0 }
  if (options.AllowInterrupt || options.AllowQuit || options.AllowSuspend) = false then
    { t6 with c_lflag := clearBits t6.c_lflag ISIG }
  else
    let t7 : Termios :=
      if options.AllowInterrupt = false then
        { t6 with c_cc := Function.update t6.c_cc VINTR 0 }
      else t6
    let t8 : Termios :=
      if options.AllowQuit = false then
        { t7 with c_cc := Function.update t7.c_cc VQUIT 0 }
      else t7
    if options.AllowSuspend = false then
      { t8 with c_cc := Function.update t8.c_cc VSUSP 0 }
    else t8

/-! ## Operating system calls -/

/-- What descriptor `fd` refers to. -/
def fdState (w : World) (fd : Int) : FdState :=
  if fd < 0 then FdState.closed else w.fds.getD fd.toNat FdState.closed

/-- `isatty(fd)` -/
def isatty (w : World) (fd : Int) : Bool :=
  match fdState w fd with
  | FdState.tty _ => true
  | _ => false

/-- `tcgetattr(fd, &t)`: the attributes stored into `t`, `none` when the call
fails (then `t` is left as it was). -/
def tcgetattr (w : World) (fd : Int) : Option Termios :=
  match fdState w fd with
  | FdState.tty dev => some (w.termAttrs dev)
  | _ => none

/-- `tcsetattr(fd, TCSAFLUSH, &t)`: applies `t` when `fd` refers to a
terminal, fails without effect otherwise. -/
def tcsetattr (w : World) (fd : Int) (t : Termios) : World :=
  match fdState w fd with
  | FdState.tty dev => { w with termAttrs := Function.update w.termAttrs dev t }
  | _ => w

/-- `ioctl(fd, TIOCGWINSZ, &s)`: the window size, `none` when the call fails. -/
def ioctlWinsize (w : World) (fd : Int) : Option (Nat × Nat) :=
  match fdState w fd with
  | FdState.tty dev => w.winsize dev
  | _ => none

/-- The descriptor table with entry `i` replaced (the table grows by one
entry when `i` is its length). -/
def setFd (fds : List FdState) (i : Nat) (st : FdState) : List FdState :=
  if i < fds.length then fds.set i st else fds ++ [st]

/-- `open("/dev/tty", ...)`: fails with `-1` without a controlling terminal,
otherwise returns the lowest unused descriptor. -/
def openDevTty (w : World) : Int × World :=
  match w.ctty with
  | none => (-1, w)
  | some dev =>
    let i := w.fds.findIdx (fun st => decide (st = FdState.closed))
    ((i : Int), { w with fds := setFd w.fds i (FdState.tty dev) })

/-- `close(fd)` -/
def close (w : World) (fd : Int) : World :=
  if fd < 0 then w
  else if fd.toNat < w.fds.length then
    { w with fds := w.fds.set fd.toNat FdState.closed }
  else w

/-- A single `write(fd, data, strlen(data))` whose result is ignored. -/
def rawWrite (env : Env) (fd : Int) (data : List Byte) (w : World) : World :=
  let accepted : Nat :=
    match sysWrite env fd w with
    | WriteResult.ret n => min n data.length
    | WriteResult.fail _ => 0
  w.afterWrites 1 (data.take accepted)

/-! ## Signal handlers -/

/-- `restoreSystemHandler` -/
def restoreSystemHandler (env : Env) (w : World) : World :=
  let w1 := tcsetattr w w.systemRestoreFd w.systemOriginalTerminalAttributes
  match w1.systemRestoreEscape with
  | some esc => rawWrite env w1.systemRestoreFd esc w1
  | none => w1

/-- `suspendHandler`; the final `flags.reraise()` hands the signal to its
default action and leaves the state alone. -/
def suspendHandler (env : Env) (w : World) : World :=
  let w1 : World :=
    match tcgetattr w w.systemRestoreFd with
    | some t => { w with systemPresuspendTerminalAttributes := t }
    | none => w
  let w2 := tcsetattr w1 w1.systemRestoreFd w1.systemOriginalTerminalAttributes
  match w2.systemRestoreEscape with
  | some esc => rawWrite env w2.systemRestoreFd esc w2
  | none => w2

/-- `resumeHandler` -/
def resumeHandler (w : World) : World :=
  tcsetattr w w.systemRestoreFd w.systemPresuspendTerminalAttributes

/-- Runs one registered handler. -/
def runHandler (env : Env) (h : Handler) (w : World) : World :=
  match h with
  | Handler.restoreSystemHandler => restoreSystemHandler env w
  | Handler.suspendHandler => suspendHandler env w
  | Handler.resumeHandler => resumeHandler w

/-- Delivery of a signal: the signal manager runs the synchronous handlers
registered for it, in registration order. -/
def deliver (env : Env) (sig : Signal) (w : World) : World :=
  (w.syncHandlers.filter (fun p => decide (p.1 = sig))).foldl
    (fun acc p => runHandler env p.2 acc) w

/-! ## Session set-up and tear-down -/

/-- Executes the integration callbacks performed by one protocol engine entry point. -/
def runIntegration (env : Env) (fuel : Nat) :
    List IntegrationCall → World → ZTerminalPrivate → Option (World × ZTerminalPrivate)
  | [], w, s => some (w, s)
  | c :: cs, w, s =>
    let r : Option (World × ZTerminalPrivate) :=
      match c with
      | IntegrationCall.write data => integration_write env fuel data w s
      | IntegrationCall.flush => integration_flush env fuel w s
      | IntegrationCall.request_callback => some (w, integration_request_callback s)
      | IntegrationCall.is_bad => some (w, s)
    match r with
    | none => none
    | some (w1, s1) => runIntegration env fuel cs w1 s1

/-- `ZTerminalPrivate::integration_free` -/
def integration_free (w : World) (s : ZTerminalPrivate) : World :=
  if s.auto_close = true ∧ s.fd ≠ -1 then close w s.fd else w

/-- The handlers `commonStuff` registers, in order. -/
def installedHandlers : List (Signal × Handler) :=
  [ (Signal.termination, Handler.restoreSystemHandler),
    (Signal.crash, Handler.restoreSystemHandler),
    (Signal.SIGTSTP, Handler.suspendHandler),
    (Signal.SIGTTIN, Handler.suspendHandler),
    (Signal.SIGTTOU, Handler.suspendHandler),
    (Signal.SIGCONT, Handler.resumeHandler) ]

/-- The `if (!systemRestoreInited)` block of `commonStuff`; the escape is the
string `"\e[0m\r\n"`. -/
def registerSystemRestore (w : World) (s : ZTerminalPrivate) : World :=
  if w.systemRestoreInited = false then
    { w with
      systemOriginalTerminalAttributes := s.originalTerminalAttributes,
      systemRestoreInited := true,
      systemRestoreFd := s.fd,
      systemRestoreEscape := some [0x1b, 0x5b, 0x30, 0x6d, 0x0d, 0x0a],
      syncHandlers := w.syncHandlers ++ installedHandlers,
      systemTerminalResumeNotifier := true,
      systemTerminalSizeChangeNotifier := true,
      systemTerminal := some s.pub }
  else w

/-- `ZTerminalPrivate::commonStuff`.  A local `struct termios` that
`tcgetattr` failed to fill is taken as zero-filled. -/
def commonStuff (env : Env) (fuel : Nat) (options : Options)
    (w : World) (s : ZTerminalPrivate) : Option (Bool × World × ZTerminalPrivate) :=
  let s1 : ZTerminalPrivate := { s with callbackRequested := false }
  let s2 : ZTerminalPrivate := { s1 with terminal := some w.engines }
  let w1 : World := { w with engines := w.engines + 1 }
  let size : Nat × Nat :=
    if isatty w1 s2.fd = true then
      match ioctlWinsize w1 s2.fd with
      | some sz => sz
      | none => (80, 24)
    else (80, 24)
  let s3 : ZTerminalPrivate := { s2 with surface := some size }
  let s4 : ZTerminalPrivate :=
    match tcgetattr w1 s3.fd with
    | some t => { s3 with originalTerminalAttributes := t }
    | none => s3
  let w2 : World := registerSystemRestore w1 s4
  let tattr : Termios :=
    match tcgetattr w2 s4.fd with
    | some t => t
    | none => Termios.zero
  let w3 : World := tcsetattr w2 s4.fd (rawAttributes options tattr)
  let s5 : ZTerminalPrivate := { s4 with engineCallbacksSet := true }
  let s6 : ZTerminalPrivate :=
    if options.DisableAutoDetectTimeoutMessage = false then
      { s5 with autoDetectTimeoutTimer := some 10000 }
    else s5
  match runIntegration env fuel env.engine.auto_detect w3 s6 with
  | none => none
  | some (w4, s7) =>
    let s8 : ZTerminalPrivate := { s7 with callbackTimerSingleShot := true }
    let s9 : ZTerminalPrivate := { s8 with inputNotifier := some s8.fd }
    some (true, w4, s9)

/-- `ZTerminalPrivate::setup` -/
def setup (env : Env) (fuel : Nat) (options : Options)
    (w : World) (s : ZTerminalPrivate) : Option (Bool × World × ZTerminalPrivate) :=
  if s.fd ≠ -1 then some (false, w, s)
  else
    let s1 : ZTerminalPrivate := { s with fd := -1, auto_close := false }
    if isatty w 0 = true then
      commonStuff env fuel options w { s1 with fd := 0 }
    else if isatty w 1 = true then
      commonStuff env fuel options w { s1 with fd := 1 }
    else if isatty w 2 = true then
      commonStuff env fuel options w { s1 with fd := 2 }
    else
      let r := openDevTty w
      let s2 : ZTerminalPrivate := { s1 with fd := r.1, auto_close := true }
      if s2.fd = -1 then some (false, r.2, s2)
      else commonStuff env fuel options r.2 s2

/-- `ZTerminalPrivate::setupFromControllingTerminal` -/
def setupFromControllingTerminal (env : Env) (fuel : Nat) (options : Options)
    (w : World) (s : ZTerminalPrivate) : Option (Bool × World × ZTerminalPrivate) :=
  if s.fd ≠ -1 then some (false, w, s)
  else
    let r := openDevTty w
    let s1 : ZTerminalPrivate := { s with fd := r.1 }
    if s1.fd = -1 then some (false, r.2, s1)
    else commonStuff env fuel options r.2 { s1 with auto_close := true }

/-- `termpaint_terminal_free_with_restore`: the engine's callbacks, then the
`free` callback of the integration (`integration_free`). -/
def termpaint_terminal_free_with_restore (env : Env) (fuel : Nat)
    (w : World) (s : ZTerminalPrivate) : Option (World × ZTerminalPrivate) :=
  match runIntegration env fuel env.engine.free_with_restore w s with
  | none => none
  | some (w1, s1) => some (integration_free w1 s1, s1)

/-- `ZTerminalPrivate::deinitTerminal` -/
def deinitTerminal (env : Env) (fuel : Nat)
    (w : World) (s : ZTerminalPrivate) : Option (World × ZTerminalPrivate) :=
  match runIntegration env fuel env.engine.reset_attributes w s with
  | none => none
  | some (w1, s1) =>
    match termpaint_terminal_free_with_restore env fuel w1 s1 with
    | none => none
    | some (w2, s2) =>
      let w3 : World :=
        if s2.fd = w2.systemRestoreFd then { w2 with systemRestoreEscape := some [] }
        else w2
      let s3 : ZTerminalPrivate := { s2 with terminal := none }
      some (tcsetattr w3 s3.fd s3.originalTerminalAttributes, s3)

/-- `ZTerminalPrivate::maybeSystemTerminalSetup` -/
def maybeSystemTerminalSetup (env : Env) (w : World) (s : ZTerminalPrivate) : World :=
  if s.fd = w.systemRestoreFd then
    { w with systemRestoreEscape := some env.engine.restore_sequence }
  else w

/-! ## Runs of the output path -/

/-- A write result on a healthy descriptor: some bytes are taken, or the call
is interrupted. -/
def WriteResult.benign : WriteResult → Bool
  | WriteResult.ret n => decide (0 < n)
  | WriteResult.fail e => decide (e = Errno.EINTR)

/-- Submits the chunks with `integration_write`, one after the other, then
calls `integration_flush`. -/
def writesThenFlush (env : Env) (fuel : Nat) :
    List (List Byte) → World → ZTerminalPrivate → Option (World × ZTerminalPrivate)
  | [], w, s => integration_flush env fuel w s
  | d :: ds, w, s =>
    match integration_write env fuel d w s with
    | none => none
    | some (w1, s1) => writesThenFlush env fuel ds w1 s1


/-! ## Concrete environments -/

/-- Attributes of a terminal in the usual cooked mode. -/
def cookedAttrs : Termios :=
  { c_iflag := 0x4500, c_oflag := 0x5, c_cflag := 0xbf, c_lflag := 0x8a3b, c_line := 0,
    c_cc := fun i => [3, 28, 127, 21, 4, 0, 1, 0, 17, 19, 26, 0, 18, 15, 23, 22].getD i.val 0,
    c_ispeed := 15, c_ospeed := 15 }

/-- A process before any session is set up: terminal device `0` is the
controlling terminal and is in cooked mode, no descriptor beyond `fds` is open. -/
def initialWorld (fds : List FdState) : World :=
  { fds := fds, termAttrs := fun _ => cookedAttrs, winsize := fun _ => some (120, 40),
    ctty := some 0, writeCalls := 0, wire := [], engines := 0,
    systemRestoreInited := false, systemRestoreFd := -1,
    systemOriginalTerminalAttributes := Termios.zero, systemRestoreEscape := none,
    systemPresuspendTerminalAttributes := Termios.zero, syncHandlers := [],
    systemTerminalResumeNotifier := false, systemTerminalSizeChangeNotifier := false,
    systemTerminal := none }

/-- Standard input, output and error all refer to terminal device `0`. -/
def stdTtyFds : List FdState := [FdState.tty 0, FdState.tty 0, FdState.tty 0]

/-- Standard input, output and error are redirected to files. -/
def stdFileFds : List FdState := [FdState.file, FdState.file, FdState.file]

/-- A freshly constructed `ZTerminalPrivate` (`fd` is `-1`). -/
def freshSession (pub : Nat) : ZTerminalPrivate :=
  { pub := pub, fd := -1, auto_close := false, originalTerminalAttributes := Termios.zero,
    output_buffer := [], terminal := none, surface := none, callbackRequested := false,
    callbackTimerSingleShot := false, callbackTimer := none, autoDetectTimeoutTimer := none,
    inputNotifier := none, engineCallbacksSet := false }

/-- A session that holds descriptor `fd`. -/
def sessionOn (pub : Nat) (fd : Int) : ZTerminalPrivate :=
  { freshSession pub with fd := fd }

/-- An engine that writes a few bytes in each entry point. -/
def demoEngine : Engine :=
  { auto_detect := [IntegrationCall.write [0x1b, 0x5b, 0x35, 0x6e], IntegrationCall.flush],
    reset_attributes := [IntegrationCall.write [0x1b, 0x5b, 0x30, 0x6d]],
    free_with_restore := [IntegrationCall.write [0x0d, 0x0a], IntegrationCall.flush],
    restore_sequence := [0x0d, 0x0a] }

/-- Every `write(2)` takes all the bytes offered (up to 4096). -/
def acceptAllEnv : Env :=
  { writeResult := fun _ => WriteResult.ret 4096, engine := demoEngine }

/-- The first two `write(2)` calls are interrupted, later ones take three bytes at a time. -/
def interruptedEnv : Env :=
  { writeResult := fun i => if i < 2 then WriteResult.fail Errno.EINTR else WriteResult.ret 3,
    engine := demoEngine }

/-- Every `write(2)` fails with the errno `e`. -/
def failingEnv (e : Errno) : Env :=
  { writeResult := fun _ => WriteResult.fail e, engine := demoEngine }

/-- Every `write(2)` returns `0` without touching errno. -/
def zeroEnv : Env :=
  { writeResult := fun _ => WriteResult.ret 0, engine := demoEngine }

/-- No option set. -/
def noOptions : Options :=
  { AllowInterrupt := false, AllowSuspend := false, AllowQuit := false,
    DisableAutoResize := false, DisableAutoDetectTimeoutMessage := false, others := 0 }

/-- Sets a fresh session up on `initialWorld fds` (through
`setupFromControllingTerminal` or through `setup`), then tears it down with
`deinitTerminal`; every `write(2)` succeeds. -/
def setupThenTeardown (fromControllingTerminal : Bool) (fds : List FdState) :
    Option (World × ZTerminalPrivate) :=
  let r :=
    if fromControllingTerminal = true then
      setupFromControllingTerminal acceptAllEnv 4 noOptions (initialWorld fds) (freshSession 1)
    else setup acceptAllEnv 4 noOptions (initialWorld fds) (freshSession 1)
  match r with
  | some (true, w1, s1) => deinitTerminal acceptAllEnv 4 w1 s1
  | _ => none

/-! ## Reading terminal attributes -/

/-- The operations of the claim about a second session. -/
inductive SessionOp where
  | setup (options : Options)
  | setupFromControllingTerminal (options : Options)
  | maybeSystemTerminalSetup
  | deinitTerminal

/-- Whether the operation is one of the two set-up functions. -/
def SessionOp.isSetup : SessionOp → Bool
  | SessionOp.setup _ => true
  | SessionOp.setupFromControllingTerminal _ => true
  | SessionOp.maybeSystemTerminalSetup => false
  | SessionOp.deinitTerminal => false

/-- Performs one operation on a session; the result of a set-up is dropped. -/
def SessionOp.run (env : Env) (fuel : Nat) :
    SessionOp → World → ZTerminalPrivate → Option (World × ZTerminalPrivate)
  | SessionOp.setup options, w, s =>
    match Tui.setup env fuel options w s with
    | none => none
    | some r => some r.2
  | SessionOp.setupFromControllingTerminal options, w, s =>
    match Tui.setupFromControllingTerminal env fuel options w s with
    | none => none
    | some r => some r.2
  | SessionOp.maybeSystemTerminalSetup, w, s => some (Tui.maybeSystemTerminalSetup env w s, s)
  | SessionOp.deinitTerminal, w, s => Tui.deinitTerminal env fuel w s

/-- The part of the process-wide restore state that is written only by the
registration block of `commonStuff`. -/
structure RestoreCore where
  inited : Bool
  fd : Int
  original : Termios

/-- The registration data of a world. -/
def World.restoreCore (w : World) : RestoreCore :=
  { inited := w.systemRestoreInited, fd := w.systemRestoreFd,
    original := w.systemOriginalTerminalAttributes }

/-- The world after the first session (on standard input) has been set up. -/
def registeredWorld : World :=
  match setup acceptAllEnv 4 noOptions (initialWorld stdTtyFds) (freshSession 1) with
  | some r => r.2.1
  | none => initialWorld stdTtyFds

/-- The job-control stop signals. -/
def Signal.isStop : Signal → Bool
  | Signal.SIGTSTP => true
  | Signal.SIGTTIN => true
  | Signal.SIGTTOU => true
  | _ => false

/-- For each stop signal of the list in turn: the stop signal is delivered,
then `SIGCONT` is delivered. -/
def stopResumeCycles (env : Env) : List Signal → World → World
  | [], w => w
  | sig :: rest, w =>
    stopResumeCycles env rest (deliver env Signal.SIGCONT (deliver env sig w))

/-- The world after a second session has been set up on `registeredWorld`
through `setup`; it picks standard input as well. -/
def secondSessionOnStdin : Option (Bool × World × ZTerminalPrivate) :=
  setup acceptAllEnv 4 noOptions registeredWorld (freshSession 2)

/-! ## Input readiness, the callback timer and the reactor -/

theorem World.afterWrites_zero (w : World) : w.afterWrites 0 [] = w := by
  cases w; simp [World.afterWrites]

theorem World.afterWrites_afterWrites (w : World) (k l : Nat) (a b : List Byte) :
    (w.afterWrites k a).afterWrites l b = w.afterWrites (k + l) (a ++ b) := by
  cases w; simp [World.afterWrites, Nat.add_assoc]


/-- What any completed run of the write loop does: some write calls were
issued (at least one when bytes were left to send), and the only session
field that may change is `fd`, which can only become `-1`. -/
theorem writeLoop_result (env : Env) (data : List Byte) :
    ∀ (fuel : Nat) (w : World) (s : ZTerminalPrivate) (written : Nat) (errno : Option Errno)
      (w' : World) (s' : ZTerminalPrivate),
      writeLoop env data fuel w s written errno = some (w', s') →
      ∃ k bytes, w' = w.afterWrites k bytes ∧ (s' = s ∨ s' = { s with fd := -1 }) ∧
        (written ≠ data.length → 0 < k) := by
  intro fuel
  induction fuel with
  | zero =>
    intro w s written errno w' s' h
    by_cases hw : written = data.length
    · simp [writeLoop, hw] at h
      obtain ⟨rfl, rfl⟩ := h
      exact ⟨0, [], (World.afterWrites_zero _).symm, Or.inl rfl, fun hne => absurd hw hne⟩
    · simp [writeLoop, hw] at h
  | succ fuel ih =>
    intro w s written errno w' s' h
    by_cases hw : written = data.length
    · simp [writeLoop, hw] at h
      obtain ⟨rfl, rfl⟩ := h
      exact ⟨0, [], (World.afterWrites_zero _).symm, Or.inl rfl, fun hne => absurd hw hne⟩
    · rw [writeLoop] at h
      simp only [ne_eq, hw, not_false_eq_true, if_true] at h
      split_ifs at h with h1 h2 h3 h4 h5
      · obtain ⟨k, bytes, hw', hs', _⟩ := ih _ _ _ _ _ _ h
        exact ⟨1 + k, _, by rw [hw', World.afterWrites_afterWrites], hs', fun _ => by omega⟩
      · simp only [Option.some.injEq, Prod.mk.injEq] at h
        obtain ⟨rfl, rfl⟩ := h
        exact ⟨1, _, rfl, Or.inr rfl, fun _ => Nat.one_pos⟩
      · simp only [Option.some.injEq, Prod.mk.injEq] at h
        obtain ⟨rfl, rfl⟩ := h
        exact ⟨1, _, rfl, Or.inr rfl, fun _ => Nat.one_pos⟩
      · simp only [Option.some.injEq, Prod.mk.injEq] at h
        obtain ⟨rfl, rfl⟩ := h
        exact ⟨1, _, rfl, Or.inr rfl, fun _ => Nat.one_pos⟩
      · obtain ⟨k, bytes, hw', hs', _⟩ := ih _ _ _ _ _ _ h
        exact ⟨1 + k, _, by rw [hw', World.afterWrites_afterWrites], hs', fun _ => by omega⟩
      · obtain ⟨k, bytes, hw', hs', _⟩ := ih _ _ _ _ _ _ h
        exact ⟨1 + k, _, by rw [hw', World.afterWrites_afterWrites], hs', fun _ => by omega⟩

theorem writeLoop_benign (env : Env) (N : Nat)
    (hben : ∀ i, (env.writeResult i).benign = true)
    (hfin : ∀ i, N ≤ i → env.writeResult i ≠ WriteResult.fail Errno.EINTR)
    (data : List Byte) :
    ∀ (fuel : Nat) (w : World) (s : ZTerminalPrivate) (written : Nat) (errno : Option Errno),
      s.fd ≠ -1 → written ≤ data.length →
      (N - w.writeCalls) + (data.length - written) ≤ fuel →
      ∃ k, writeLoop env data fuel w s written errno
        = some (w.afterWrites k (data.drop written), s) := by
  intro fuel
  induction fuel with
  | zero =>
    intro w s written errno _ hle hfuel
    have hw : written = data.length := by omega
    refine ⟨0, ?_⟩
    simp [writeLoop, hw, World.afterWrites_zero]
  | succ fuel ih =>
    intro w s written errno hfd hle hfuel
    by_cases hw : written = data.length
    · refine ⟨0, ?_⟩
      simp [writeLoop, hw, World.afterWrites_zero]
    · have hlt : written < data.length := lt_of_le_of_ne hle hw
      have hb := hben w.writeCalls
      cases hres : env.writeResult w.writeCalls with
      | ret n =>
        rw [hres] at hb
        have hn : 0 < n := by simpa [WriteResult.benign] using hb
        have hacc : 0 < min n (data.length - written) := by
          apply lt_min hn; omega
        obtain ⟨k, hk⟩ := ih
          (w.afterWrites 1 ((data.drop written).take (min n (data.length - written))))
          s (written + min n (data.length - written)) errno hfd
          (by have := min_le_right n (data.length - written); omega)
          (by simp only [World.afterWrites]
              have := min_le_right n (data.length - written); omega)
        refine ⟨1 + k, ?_⟩
        have hpos : (0 : Int) < ((min n (data.length - written) : Nat) : Int) := by
          exact_mod_cast hacc
        rw [writeLoop]
        simp only [sysWrite, hfd, hres, if_neg, hw, ne_eq, not_false_eq_true, if_true]
        rw [if_pos hpos, hk, World.afterWrites_afterWrites, ← List.drop_drop,
          List.take_append_drop]
      | fail e =>
        rw [hres] at hb
        have he : e = Errno.EINTR := by simpa [WriteResult.benign] using hb
        subst he
        have hcalls : w.writeCalls < N := by
          by_contra hge
          exact hfin w.writeCalls (not_lt.mp hge) hres
        obtain ⟨k, hk⟩ := ih (w.afterWrites 1 ((data.drop written).take 0)) s written
          (some Errno.EINTR) hfd hle
          (by simp only [World.afterWrites]; omega)
        refine ⟨1 + k, ?_⟩
        rw [writeLoop]
        simp only [sysWrite, hfd, hres, if_neg, hw, ne_eq, not_false_eq_true, if_true]
        simp only [hk, World.afterWrites_afterWrites]
        simp

theorem integration_flush_benign (env : Env) (N : Nat)
    (hben : ∀ i, (env.writeResult i).benign = true)
    (hfin : ∀ i, N ≤ i → env.writeResult i ≠ WriteResult.fail Errno.EINTR)
    (fuel : Nat) (w : World) (s : ZTerminalPrivate) (hfd : s.fd ≠ -1)
    (hfuel : N + s.output_buffer.length ≤ fuel) :
    ∃ k, integration_flush env fuel w s
      = some (w.afterWrites k s.output_buffer, { s with output_buffer := [] }) := by
  obtain ⟨k, hk⟩ := writeLoop_benign env N hben hfin s.output_buffer fuel w s 0 none hfd
    (Nat.zero_le _) (by omega)
  exact ⟨k, by simp [integration_flush, integration_write_uncached, hk]⟩

theorem integration_write_benign (env : Env) (N : Nat)
    (hben : ∀ i, (env.writeResult i).benign = true)
    (hfin : ∀ i, N ≤ i → env.writeResult i ≠ WriteResult.fail Errno.EINTR)
    (fuel : Nat) (data : List Byte) (w : World) (s : ZTerminalPrivate) (hfd : s.fd ≠ -1)
    (hfuel : N + (s.output_buffer.length + data.length) ≤ fuel) :
    ∃ k sent rest, integration_write env fuel data w s
        = some (w.afterWrites k sent, { s with output_buffer := rest }) ∧
      sent ++ rest = s.output_buffer ++ data := by
  by_cases hlen : (s.output_buffer ++ data).length > 512
  · obtain ⟨k, hk⟩ := integration_flush_benign env N hben hfin fuel w
      { s with output_buffer := s.output_buffer ++ data } hfd
      (by simpa using hfuel)
    refine ⟨k, s.output_buffer ++ data, [], ?_, by simp⟩
    simp only [integration_write, hlen, if_true, hk]
  · refine ⟨0, [], s.output_buffer ++ data, ?_, by simp⟩
    simp only [integration_write, hlen, if_false, World.afterWrites_zero]

theorem writesThenFlush_benign (env : Env) (N : Nat)
    (hben : ∀ i, (env.writeResult i).benign = true)
    (hfin : ∀ i, N ≤ i → env.writeResult i ≠ WriteResult.fail Errno.EINTR)
    (fuel : Nat) :
    ∀ (chunks : List (List Byte)) (w : World) (s : ZTerminalPrivate), s.fd ≠ -1 →
      N + (s.output_buffer.length + chunks.flatten.length) ≤ fuel →
      ∃ k, writesThenFlush env fuel chunks w s
        = some (w.afterWrites k (s.output_buffer ++ chunks.flatten),
                { s with output_buffer := [] }) := by
  intro chunks
  induction chunks with
  | nil =>
    intro w s hfd hfuel
    obtain ⟨k, hk⟩ := integration_flush_benign env N hben hfin fuel w s hfd
      (by simpa using hfuel)
    exact ⟨k, by simp [writesThenFlush, hk]⟩
  | cons d ds ih =>
    intro w s hfd hfuel
    simp only [List.flatten_cons, List.length_append] at hfuel
    obtain ⟨k1, sent, rest, hw, hsplit⟩ :=
      integration_write_benign env N hben hfin fuel d w s hfd (by omega)
    have hlen : sent.length + rest.length = s.output_buffer.length + d.length := by
      simpa using congrArg List.length hsplit
    obtain ⟨k2, hk2⟩ := ih (w.afterWrites k1 sent) { s with output_buffer := rest } hfd
      (by simp only []; omega)
    refine ⟨k1 + k2, ?_⟩
    simp only [writesThenFlush, hw, hk2, World.afterWrites_afterWrites, List.flatten_cons]
    rw [← List.append_assoc sent, hsplit, List.append_assoc]

/-- C2: for every sequence of `integration_write` calls followed by
`integration_flush`, on a session with a valid descriptor whose `write(2)` calls
each take a positive number of the offered bytes or fail with `EINTR` (and
`EINTR` occurs only finitely often), the run completes and the bytes put on
the wire are exactly the bytes buffered before, followed by the submitted
chunks in submission order; the buffer ends empty and the session is not bad. -/
theorem C2_writes_then_flush_deliver_concatenation (env : Env)
    (hben : ∀ i, (env.writeResult i).benign = true)
    (hfin : ∃ N, ∀ i, N ≤ i → env.writeResult i ≠ WriteResult.fail Errno.EINTR)
    (w : World) (s : ZTerminalPrivate) (hfd : s.fd ≠ -1) (chunks : List (List Byte)) :
    ∃ fuel0, ∀ fuel, fuel0 ≤ fuel → ∃ w' s',
      writesThenFlush env fuel chunks w s = some (w', s') ∧
      w'.wire = w.wire ++ s.output_buffer ++ chunks.flatten ∧
      s'.output_buffer = [] ∧ integration_is_bad s' = false := by
  obtain ⟨N, hN⟩ := hfin
  refine ⟨N + (s.output_buffer.length + chunks.flatten.length), fun fuel hfuel => ?_⟩
  obtain ⟨k, hk⟩ := writesThenFlush_benign env N hben hN fuel chunks w s hfd hfuel
  exact ⟨_, _, hk, by simp [World.afterWrites], rfl, by simp [integration_is_bad, hfd]⟩

theorem interruptedEnv_benign : ∀ i, (interruptedEnv.writeResult i).benign = true := by
  intro i
  by_cases h : i < 2 <;> simp [interruptedEnv, WriteResult.benign, h]

theorem interruptedEnv_finite :
    ∃ N, ∀ i, N ≤ i → interruptedEnv.writeResult i ≠ WriteResult.fail Errno.EINTR := by
  refine ⟨2, fun i hi => ?_⟩
  have h : ¬ i < 2 := by omega
  simp [interruptedEnv, h]

/-- C2 at a concrete input: two interrupted calls, then three bytes per call. -/
theorem C2_witness :
    (∀ i, (interruptedEnv.writeResult i).benign = true) ∧
    (sessionOn 1 0).fd ≠ -1 ∧
    ∃ fuel0, ∀ fuel, fuel0 ≤ fuel → ∃ w' s',
      writesThenFlush interruptedEnv fuel [[1, 2], [], [3, 4, 5, 6]]
        (initialWorld stdTtyFds) (sessionOn 1 0) = some (w', s') ∧
      w'.wire = (initialWorld stdTtyFds).wire ++ (sessionOn 1 0).output_buffer
        ++ [[1, 2], [], [3, 4, 5, 6]].flatten ∧
      s'.output_buffer = [] ∧ integration_is_bad s' = false :=
  ⟨interruptedEnv_benign, by decide,
   C2_writes_then_flush_deliver_concatenation interruptedEnv interruptedEnv_benign
     interruptedEnv_finite (initialWorld stdTtyFds) (sessionOn 1 0) (by decide)
     [[1, 2], [], [3, 4, 5, 6]]⟩

theorem integration_flush_result (env : Env) (fuel : Nat) (w : World) (s : ZTerminalPrivate)
    (w' : World) (s' : ZTerminalPrivate)
    (h : integration_flush env fuel w s = some (w', s')) :
    ∃ k bytes, w' = w.afterWrites k bytes ∧
      (s' = { s with output_buffer := [] } ∨ s' = { s with fd := -1, output_buffer := [] }) ∧
      (s.output_buffer ≠ [] → 0 < k) := by
  unfold integration_flush integration_write_uncached at h
  cases hl : writeLoop env s.output_buffer fuel w s 0 none with
  | none => simp [hl] at h
  | some r =>
    obtain ⟨w1, s1⟩ := r
    simp only [hl, Option.some.injEq, Prod.mk.injEq] at h
    obtain ⟨rfl, rfl⟩ := h
    obtain ⟨k, bytes, hw, hs, hk⟩ := writeLoop_result env _ _ _ _ _ _ _ _ hl
    refine ⟨k, bytes, hw, ?_, fun hne => hk (by
      intro h0; exact hne (List.length_eq_zero.mp h0.symm))⟩
    rcases hs with rfl | rfl
    · exact Or.inl rfl
    · exact Or.inr rfl

/-- C3: `integration_write` appends to the buffer and flushes exactly when
the buffer then holds more than 512 bytes: at most 512 bytes leave the world
untouched (no write call) and only grow the buffer; more than 512 bytes make
the call a flush of the grown buffer, which issues at least one write call.
The buffer holds at most 512 bytes after every write.  With `write(2)` calls
that take a positive number of bytes or are interrupted finitely often,
three 200-byte writes to an empty buffer transmit nothing during the first
two, and after the third write and a flush exactly those 600 bytes are on
the wire. -/
theorem C3_write_flushes_above_512 :
    (∀ (env : Env) (fuel : Nat) (w : World) (s : ZTerminalPrivate) (data : List Byte),
      ((s.output_buffer ++ data).length ≤ 512 →
        integration_write env fuel data w s
          = some (w, { s with output_buffer := s.output_buffer ++ data })) ∧
      (512 < (s.output_buffer ++ data).length →
        integration_write env fuel data w s
          = integration_flush env fuel w { s with output_buffer := s.output_buffer ++ data }) ∧
      (∀ w' s', integration_write env fuel data w s = some (w', s') →
        (w.writeCalls < w'.writeCalls ↔ 512 < (s.output_buffer ++ data).length) ∧
        s'.output_buffer.length ≤ 512)) ∧
    (∀ (env : Env) (w : World) (s : ZTerminalPrivate) (d1 d2 d3 : List Byte),
      (∀ i, (env.writeResult i).benign = true) →
      (∃ N, ∀ i, N ≤ i → env.writeResult i ≠ WriteResult.fail Errno.EINTR) →
      s.fd ≠ -1 → s.output_buffer = [] →
      d1.length = 200 → d2.length = 200 → d3.length = 200 →
      ∃ fuel0, ∀ fuel, fuel0 ≤ fuel → ∃ s1 s2 w3 s3 w4 s4,
        integration_write env fuel d1 w s = some (w, s1) ∧
        integration_write env fuel d2 w s1 = some (w, s2) ∧
        integration_write env fuel d3 w s2 = some (w3, s3) ∧
        integration_flush env fuel w3 s3 = some (w4, s4) ∧
        w4.wire = w.wire ++ (d1 ++ d2 ++ d3) ∧ (d1 ++ d2 ++ d3).length = 600 ∧
        s4.output_buffer = []) := by
  have hsmall : ∀ (env : Env) (fuel : Nat) (w : World) (s : ZTerminalPrivate)
      (data : List Byte), (s.output_buffer ++ data).length ≤ 512 →
      integration_write env fuel data w s
        = some (w, { s with output_buffer := s.output_buffer ++ data }) := by
    intro env fuel w s data h
    have h' : ¬ (s.output_buffer ++ data).length > 512 := by omega
    simp only [integration_write, h', if_false]
  have hbig : ∀ (env : Env) (fuel : Nat) (w : World) (s : ZTerminalPrivate)
      (data : List Byte), 512 < (s.output_buffer ++ data).length →
      integration_write env fuel data w s
        = integration_flush env fuel w { s with output_buffer := s.output_buffer ++ data } := by
    intro env fuel w s data h
    have h' : (s.output_buffer ++ data).length > 512 := h
    simp only [integration_write, h', if_true]
  refine ⟨fun env fuel w s data => ⟨hsmall env fuel w s data, hbig env fuel w s data, ?_⟩, ?_⟩
  · intro w' s' h
    by_cases hlen : 512 < (s.output_buffer ++ data).length
    · rw [hbig env fuel w s data hlen] at h
      obtain ⟨k, bytes, hw, hs, hk⟩ := integration_flush_result env fuel w _ w' s' h
      have hne : s.output_buffer ++ data ≠ [] := by
        intro h0; rw [h0] at hlen; simp at hlen
      have hk' := hk hne
      refine ⟨⟨fun _ => hlen, fun _ => by rw [hw]; simp only [World.afterWrites]; omega⟩, ?_⟩
      rcases hs with rfl | rfl <;> simp
    · rw [hsmall env fuel w s data (by omega)] at h
      simp only [Option.some.injEq, Prod.mk.injEq] at h
      obtain ⟨rfl, rfl⟩ := h
      exact ⟨⟨fun hlt => absurd hlt (lt_irrefl _), fun hl => absurd hl hlen⟩, by
        simpa using not_lt.mp hlen⟩
  · intro env w s d1 d2 d3 hben hfin hfd hbuf h1 h2 h3
    obtain ⟨N, hN⟩ := hfin
    refine ⟨N + 600, fun fuel hfuel => ?_⟩
    have e1 := hsmall env fuel w s d1 (by simp [hbuf, h1])
    have e2 := hsmall env fuel w { s with output_buffer := s.output_buffer ++ d1 } d2
      (by simp [hbuf, h1, h2])
    have e3 := hbig env fuel w
      { s with output_buffer := s.output_buffer ++ d1 ++ d2 } d3
      (by simp [hbuf, h1, h2, h3])
    obtain ⟨k3, hk3⟩ := integration_flush_benign env N hben hN fuel w
      { s with output_buffer := s.output_buffer ++ d1 ++ d2 ++ d3 } hfd
      (by simp [hbuf, h1, h2, h3]; omega)
    obtain ⟨k4, hk4⟩ := integration_flush_benign env N hben hN fuel
      (w.afterWrites k3 (s.output_buffer ++ d1 ++ d2 ++ d3))
      { s with output_buffer := [] } hfd (by simp; omega)
    refine ⟨_, _, _, _, _, _, e1, e2, e3.trans hk3, hk4, ?_, by simp [h1, h2, h3], rfl⟩
    simp [World.afterWrites, hbuf]

/-- C3 at a concrete input: three chunks of 200 bytes, two interrupted calls,
then three bytes per call. -/
theorem C3_witness :
    ∃ fuel0, ∀ fuel, fuel0 ≤ fuel → ∃ s1 s2 w3 s3 w4 s4,
      integration_write interruptedEnv fuel (List.replicate 200 65)
        (initialWorld stdTtyFds) (sessionOn 1 0) = some (initialWorld stdTtyFds, s1) ∧
      integration_write interruptedEnv fuel (List.replicate 200 66)
        (initialWorld stdTtyFds) s1 = some (initialWorld stdTtyFds, s2) ∧
      integration_write interruptedEnv fuel (List.replicate 200 67)
        (initialWorld stdTtyFds) s2 = some (w3, s3) ∧
      integration_flush interruptedEnv fuel w3 s3 = some (w4, s4) ∧
      w4.wire = (initialWorld stdTtyFds).wire ++
        (List.replicate 200 65 ++ List.replicate 200 66 ++ List.replicate 200 67) ∧
      (List.replicate 200 65 ++ List.replicate 200 66 ++ List.replicate 200 67).length = 600 ∧
      s4.output_buffer = [] :=
  C3_write_flushes_above_512.2 interruptedEnv (initialWorld stdTtyFds) (sessionOn 1 0)
    (List.replicate 200 65) (List.replicate 200 66) (List.replicate 200 67)
    interruptedEnv_benign interruptedEnv_finite (by decide) rfl
    (List.length_replicate _ _) (List.length_replicate _ _) (List.length_replicate _ _)

/-- When every write call returns `0` or fails with an errno the loop does
not list, the write loop never ends while bytes are left to send. -/
theorem writeLoop_spins (env : Env) (data : List Byte)
    (hstuck : ∀ i, env.writeResult i = WriteResult.ret 0 ∨
      ∃ c, env.writeResult i = WriteResult.fail (Errno.other c)) :
    ∀ (fuel : Nat) (w : World) (s : ZTerminalPrivate) (written : Nat) (errno : Option Errno),
      s.fd ≠ -1 → written ≠ data.length →
      (errno = none ∨ ∃ c, errno = some (Errno.other c)) →
      writeLoop env data fuel w s written errno = none := by
  intro fuel
  induction fuel with
  | zero =>
    intro w s written errno _ hw _
    simp [writeLoop, hw]
  | succ fuel ih =>
    intro w s written errno hfd hw herr
    rw [writeLoop]
    simp only [ne_eq, hw, not_false_eq_true, if_true, sysWrite, hfd, if_false]
    rcases hstuck w.writeCalls with hres | ⟨c, hres⟩
    · have h0 : ¬ (((min 0 (data.length - written) : Nat) : Int) > 0) := by simp
      simp only [hres, h0, if_false]
      rcases herr with rfl | ⟨c, rfl⟩
      · simpa using ih _ s written none hfd hw (Or.inl rfl)
      · simpa using ih _ s written _ hfd hw (Or.inr ⟨c, rfl⟩)
    · have hneg : ¬ ((-1 : Int) > 0) := by decide
      simp only [hres, hneg, if_false]
      simpa using ih _ s written _ hfd hw (Or.inr ⟨c, rfl⟩)

/-- C5 fails on the code: with one byte to send, a `write(2)` that keeps
returning `0`, or keeps failing with an errno outside the listed ones (here
`12`, `ENOMEM`), makes `integration_write_uncached` retry forever: no amount
of fuel lets it return, although `EINTR` never occurs. -/
theorem C5_flush_loop_spins_without_progress :
    (∀ i, zeroEnv.writeResult i ≠ WriteResult.fail Errno.EINTR) ∧
    (∀ i, (failingEnv (Errno.other 12)).writeResult i ≠ WriteResult.fail Errno.EINTR) ∧
    ∀ fuel,
      integration_write_uncached zeroEnv fuel [65] (initialWorld stdTtyFds) (sessionOn 1 0)
        = none ∧
      integration_write_uncached (failingEnv (Errno.other 12)) fuel [65]
        (initialWorld stdTtyFds) (sessionOn 1 0) = none := by
  refine ⟨fun i => by simp [zeroEnv], fun i => by simp [failingEnv], fun fuel => ⟨?_, ?_⟩⟩
  · exact writeLoop_spins zeroEnv [65] (fun i => Or.inl rfl) fuel _ _ 0 none
      (by decide) (by decide) (Or.inl rfl)
  · exact writeLoop_spins (failingEnv (Errno.other 12)) [65] (fun i => Or.inr ⟨12, rfl⟩)
      fuel _ _ 0 none (by decide) (by decide) (Or.inl rfl)

/-- C1 fails on the code for the controlling-terminal route: a session that
opened `/dev/tty` itself (descriptor `3`, through `setupFromControllingTerminal`
or through `setup` when no standard descriptor is a terminal) closes that
descriptor in `integration_free` before `deinitTerminal` calls `tcsetattr`, so
the terminal keeps the raw-mode attributes (`c_lflag` `0xa30`) instead of the
ones it had before setup (`0x8a3b`).  A session on standard input gets them back. -/
theorem C1_teardown_after_close_leaves_raw_mode :
    ((initialWorld stdFileFds).termAttrs 0).c_lflag = 0x8a3b ∧
    (∃ w s, setupThenTeardown true stdFileFds = some (w, s) ∧
      s.auto_close = true ∧ fdState w 3 = FdState.closed ∧
      (w.termAttrs 0).c_lflag = 0xa30 ∧ (w.termAttrs 0).c_iflag = 0x4005 ∧
      (w.termAttrs 0).c_oflag = 0) ∧
    (∃ w s, setupThenTeardown false stdFileFds = some (w, s) ∧
      s.auto_close = true ∧ fdState w 3 = FdState.closed ∧
      (w.termAttrs 0).c_lflag = 0xa30) ∧
    (∃ w s, setupThenTeardown false stdTtyFds = some (w, s) ∧
      s.auto_close = false ∧ (w.termAttrs 0).c_lflag = 0x8a3b) :=
  ⟨rfl, ⟨_, _, rfl, rfl, rfl, rfl, rfl, rfl⟩, ⟨_, _, rfl, rfl, rfl, rfl⟩,
   ⟨_, _, rfl, rfl, rfl⟩⟩

/-- C6: on a session whose descriptor slot is occupied, `setup` and
`setupFromControllingTerminal` return `false` and leave the world (descriptor
table, terminal attributes, file-static restore state) and the session as
they were. -/
theorem C6_setup_on_occupied_session_changes_nothing (env : Env) (fuel : Nat)
    (options : Options) (w : World) (s : ZTerminalPrivate) (h : s.fd ≠ -1) :
    setup env fuel options w s = some (false, w, s) ∧
    setupFromControllingTerminal env fuel options w s = some (false, w, s) := by
  constructor
  · simp only [setup, ne_eq, h, not_false_eq_true, if_true]
  · simp only [setupFromControllingTerminal, ne_eq, h, not_false_eq_true, if_true]

/-- C6 at a concrete input: a session that already holds descriptor `0`. -/
theorem C6_witness :
    (sessionOn 1 0).fd ≠ -1 ∧
    setup acceptAllEnv 4 noOptions (initialWorld stdTtyFds) (sessionOn 1 0)
      = some (false, initialWorld stdTtyFds, sessionOn 1 0) ∧
    setupFromControllingTerminal acceptAllEnv 4 noOptions (initialWorld stdTtyFds)
      (sessionOn 1 0) = some (false, initialWorld stdTtyFds, sessionOn 1 0) :=
  ⟨by decide,
   C6_setup_on_occupied_session_changes_nothing acceptAllEnv 4 noOptions
     (initialWorld stdTtyFds) (sessionOn 1 0) (by decide)⟩

/-! ## Properties of the raw-mode attributes -/

theorem word_testBit_of_lt (flag i : Nat) (hflag : flag < 2 ^ 32)
    (hi : flag.testBit i = true) : (0xFFFFFFFF : Nat).testBit i = true := by
  have hF : (0xFFFFFFFF : Nat) = 2 ^ 32 - 1 := by norm_num
  rw [hF, Nat.testBit_two_pow_sub_one]
  by_contra hge
  have hge' : 32 ≤ i := by simpa using hge
  have hlt : flag < 2 ^ i := lt_of_lt_of_le hflag (Nat.pow_le_pow_right (by norm_num) hge')
  rw [Nat.testBit_lt_two_pow hlt] at hi
  cases hi

/-- Clearing `m` leaves the bits of a disjoint `flag` alone. -/
theorem clearBits_and_disjoint (x m flag : Nat) (hflag : flag < 2 ^ 32)
    (hd : flag &&& m = 0) : clearBits x m &&& flag = x &&& flag := by
  apply Nat.eq_of_testBit_eq
  intro i
  have h1 := congrArg (fun n => n.testBit i) hd
  simp only [Nat.testBit_and, Nat.zero_testBit] at h1
  simp only [clearBits, Nat.testBit_and, Nat.testBit_xor]
  by_cases hf : flag.testBit i = true
  · have hF := word_testBit_of_lt flag i hflag hf
    rw [hf] at h1
    simp only [Bool.true_and] at h1
    simp [hf, hF, h1]
  · simp [hf]

/-- Clearing `m` turns every bit of a `flag` contained in `m` off. -/
theorem clearBits_and_subset (x m flag : Nat) (hflag : flag < 2 ^ 32)
    (hs : flag &&& m = flag) : clearBits x m &&& flag = 0 := by
  apply Nat.eq_of_testBit_eq
  intro i
  have h1 := congrArg (fun n => n.testBit i) hs
  simp only [Nat.testBit_and] at h1
  simp only [clearBits, Nat.testBit_and, Nat.testBit_xor, Nat.zero_testBit]
  by_cases hf : flag.testBit i = true
  · have hF := word_testBit_of_lt flag i hflag hf
    rw [hf] at h1
    simp only [Bool.true_and] at h1
    simp [hf, hF, h1]
  · simp [hf]

/-- Setting `a` leaves the bits of a disjoint `flag` alone. -/
theorem or_and_disjoint (x a flag : Nat) (hd : flag &&& a = 0) :
    (x ||| a) &&& flag = x &&& flag := by
  apply Nat.eq_of_testBit_eq
  intro i
  have h1 := congrArg (fun n => n.testBit i) hd
  simp only [Nat.testBit_and, Nat.zero_testBit] at h1
  simp only [Nat.testBit_and, Nat.testBit_or]
  by_cases hf : flag.testBit i = true
  · rw [hf] at h1
    simp only [Bool.true_and] at h1
    simp [hf, h1]
  · simp [hf]

/-- Setting `a` turns every bit of a `flag` contained in `a` on. -/
theorem or_and_subset (x a flag : Nat) (hs : flag &&& a = flag) :
    (x ||| a) &&& flag = flag := by
  apply Nat.eq_of_testBit_eq
  intro i
  have h1 := congrArg (fun n => n.testBit i) hs
  simp only [Nat.testBit_and] at h1
  simp only [Nat.testBit_and, Nat.testBit_or]
  by_cases hf : flag.testBit i = true
  · rw [hf] at h1
    simp only [Bool.true_and] at h1
    simp [hf, h1]
  · simp [hf]

theorem rawAttributes_c_iflag (options : Options) (t : Termios) :
    (rawAttributes options t).c_iflag
      = clearBits (t.c_iflag ||| (IGNBRK ||| IGNPAR))
          (BRKINT ||| PARMRK ||| ISTRIP ||| INLCR ||| IGNCR ||| ICRNL ||| IXON ||| IXOFF) := by
  simp only [rawAttributes]
  split_ifs <;> rfl

theorem rawAttributes_c_oflag (options : Options) (t : Termios) :
    (rawAttributes options t).c_oflag
      = clearBits t.c_oflag (OPOST ||| ONLCR ||| OCRNL ||| ONOCR ||| ONLRET) := by
  simp only [rawAttributes]
  split_ifs <;> rfl

theorem rawAttributes_c_lflag (options : Options) (t : Termios) :
    (rawAttributes options t).c_lflag
      = if (options.AllowInterrupt || options.AllowQuit || options.AllowSuspend) = false then
          clearBits (clearBits t.c_lflag (ICANON ||| IEXTEN ||| ECHO)) ISIG
        else clearBits t.c_lflag (ICANON ||| IEXTEN ||| ECHO) := by
  simp only [rawAttributes]
  split_ifs <;> rfl

theorem rawAttributes_rest (options : Options) (t : Termios) :
    (rawAttributes options t).c_cflag = t.c_cflag ∧
    (rawAttributes options t).c_line = t.c_line ∧
    (rawAttributes options t).c_ispeed = t.c_ispeed ∧
    (rawAttributes options t).c_ospeed = t.c_ospeed := by
  simp only [rawAttributes]
  split_ifs <;> exact ⟨rfl, rfl, rfl, rfl⟩

/-- The control characters after raw mode: `VMIN` and `VTIME` are fixed, an
interrupt, quit or suspend character is zeroed when some of the three
signals is allowed but not this one, everything else is kept. -/
theorem rawAttributes_c_cc (options : Options) (t : Termios) (i : Fin NCCS) :
    (rawAttributes options t).c_cc i =
      if i = VMIN then 1
      else if i = VTIME then 0
      else if (options.AllowInterrupt || options.AllowQuit || options.AllowSuspend) = false
        then t.c_cc i
      else if i = VINTR ∧ options.AllowInterrupt = false then 0
      else if i = VQUIT ∧ options.AllowQuit = false then 0
      else if i = VSUSP ∧ options.AllowSuspend = false then 0
      else t.c_cc i := by
  obtain ⟨ai, asu, aq, dr, dd, oth⟩ := options
  have h1 : VMIN ≠ VTIME := by decide
  have h2 : VMIN ≠ VINTR := by decide
  have h3 : VMIN ≠ VQUIT := by decide
  have h4 : VMIN ≠ VSUSP := by decide
  have h5 : VTIME ≠ VINTR := by decide
  have h6 : VTIME ≠ VQUIT := by decide
  have h7 : VTIME ≠ VSUSP := by decide
  have h8 : VINTR ≠ VQUIT := by decide
  have h9 : VINTR ≠ VSUSP := by decide
  have h10 : VQUIT ≠ VSUSP := by decide
  by_cases e1 : i = VMIN
  · subst e1
    cases ai <;> cases asu <;> cases aq <;>
      simp [rawAttributes, Function.update, h1, h2, h3, h4, h5, h6, h7, h8, h9, h10,
        h1.symm, h2.symm, h3.symm, h4.symm, h5.symm, h6.symm, h7.symm, h8.symm, h9.symm,
        h10.symm]
  · by_cases e2 : i = VTIME
    · subst e2
      cases ai <;> cases asu <;> cases aq <;>
        simp [rawAttributes, Function.update, h1, h2, h3, h4, h5, h6, h7, h8, h9, h10,
          h1.symm, h2.symm, h3.symm, h4.symm, h5.symm, h6.symm, h7.symm, h8.symm, h9.symm,
          h10.symm]
    · by_cases e3 : i = VINTR
      · subst e3
        cases ai <;> cases asu <;> cases aq <;>
          simp [rawAttributes, Function.update, h1, h2, h3, h4, h5, h6, h7, h8, h9, h10,
            h1.symm, h2.symm, h3.symm, h4.symm, h5.symm, h6.symm, h7.symm, h8.symm, h9.symm,
            h10.symm]
      · by_cases e4 : i = VQUIT
        · subst e4
          cases ai <;> cases asu <;> cases aq <;>
            simp [rawAttributes, Function.update, h1, h2, h3, h4, h5, h6, h7, h8, h9, h10,
              h1.symm, h2.symm, h3.symm, h4.symm, h5.symm, h6.symm, h7.symm, h8.symm, h9.symm,
              h10.symm]
        · by_cases e5 : i = VSUSP
          · subst e5
            cases ai <;> cases asu <;> cases aq <;>
              simp [rawAttributes, Function.update, h1, h2, h3, h4, h5, h6, h7, h8, h9, h10,
                h1.symm, h2.symm, h3.symm, h4.symm, h5.symm, h6.symm, h7.symm, h8.symm, h9.symm,
                h10.symm]
          · cases ai <;> cases asu <;> cases aq <;>
              simp [rawAttributes, Function.update, e1, e2, e3, e4, e5]

/-- A flag disjoint from a union of masks is disjoint from both. -/
theorem and_or_eq_zero (flag p q : Nat) (h : flag &&& (p ||| q) = 0) :
    flag &&& p = 0 ∧ flag &&& q = 0 := by
  constructor <;>
  · apply Nat.eq_of_testBit_eq
    intro i
    have h1 := congrArg (fun n => n.testBit i) h
    simp only [Nat.testBit_and, Nat.testBit_or, Nat.zero_testBit] at h1
    simp only [Nat.testBit_and, Nat.zero_testBit]
    by_cases hf : flag.testBit i = true
    · rw [hf] at h1
      simp only [Bool.true_and, Bool.or_eq_false_iff] at h1
      simp [hf, h1.1, h1.2]
    · simp [hf]

/-- C10, as the code has it: for every prior attribute set and every option
set, the attributes raw-mode setup applies have `ICANON`, `ECHO`, `IEXTEN`
off, `OPOST`, `ONLCR`, `OCRNL`, `ONOCR`, `ONLRET` off, `BRKINT`, `PARMRK`,
`ISTRIP`, `INLCR`, `IGNCR`, `ICRNL`, `IXON`, `IXOFF` off, `VMIN` equal to `1`
and `VTIME` equal to `0`; `IGNBRK` and `IGNPAR` are on; every other flag bit
(`ISIG` apart) and every control character other than `VMIN`, `VTIME`,
`VINTR`, `VQUIT`, `VSUSP` is as in the prior attributes, and so are
`c_cflag`, `c_line` and the speeds. -/
theorem C10_raw_mode_attributes (options : Options) (tattr : Termios) :
    (rawAttributes options tattr).c_lflag &&& (ICANON ||| ECHO ||| IEXTEN) = 0 ∧
    (rawAttributes options tattr).c_oflag
      &&& (OPOST ||| ONLCR ||| OCRNL ||| ONOCR ||| ONLRET) = 0 ∧
    (rawAttributes options tattr).c_iflag
      &&& (BRKINT ||| PARMRK ||| ISTRIP ||| INLCR ||| IGNCR ||| ICRNL ||| IXON ||| IXOFF) = 0 ∧
    (rawAttributes options tattr).c_cc VMIN = 1 ∧
    (rawAttributes options tattr).c_cc VTIME = 0 ∧
    (rawAttributes options tattr).c_iflag &&& (IGNBRK ||| IGNPAR) = IGNBRK ||| IGNPAR ∧
    (∀ flag, flag < 2 ^ 32 →
      flag &&& (IGNBRK ||| IGNPAR ||| BRKINT ||| PARMRK ||| ISTRIP ||| INLCR ||| IGNCR
        ||| ICRNL ||| IXON ||| IXOFF) = 0 →
      (rawAttributes options tattr).c_iflag &&& flag = tattr.c_iflag &&& flag) ∧
    (∀ flag, flag < 2 ^ 32 →
      flag &&& (OPOST ||| ONLCR ||| OCRNL ||| ONOCR ||| ONLRET) = 0 →
      (rawAttributes options tattr).c_oflag &&& flag = tattr.c_oflag &&& flag) ∧
    (∀ flag, flag < 2 ^ 32 →
      flag &&& (ISIG ||| ICANON ||| ECHO ||| IEXTEN) = 0 →
      (rawAttributes options tattr).c_lflag &&& flag = tattr.c_lflag &&& flag) ∧
    (∀ i, i ≠ VMIN → i ≠ VTIME → i ≠ VINTR → i ≠ VQUIT → i ≠ VSUSP →
      (rawAttributes options tattr).c_cc i = tattr.c_cc i) ∧
    (rawAttributes options tattr).c_cflag = tattr.c_cflag ∧
    (rawAttributes options tattr).c_line = tattr.c_line ∧
    (rawAttributes options tattr).c_ispeed = tattr.c_ispeed ∧
    (rawAttributes options tattr).c_ospeed = tattr.c_ospeed := by
  have hrest := rawAttributes_rest options tattr
  refine ⟨?_, ?_, ?_, ?_, ?_, ?_, ?_, ?_, ?_, ?_, hrest.1, hrest.2.1, hrest.2.2.1, hrest.2.2.2⟩
  · rw [rawAttributes_c_lflag]
    split_ifs
    · rw [clearBits_and_disjoint _ ISIG _ (by decide) (by decide)]
      exact clearBits_and_subset _ _ _ (by decide) (by decide)
    · exact clearBits_and_subset _ _ _ (by decide) (by decide)
  · rw [rawAttributes_c_oflag]
    exact clearBits_and_subset _ _ _ (by decide) (by decide)
  · rw [rawAttributes_c_iflag]
    exact clearBits_and_subset _ _ _ (by decide) (by decide)
  · rw [rawAttributes_c_cc]; simp
  · rw [rawAttributes_c_cc]
    have h : VTIME ≠ VMIN := by decide
    simp [h]
  · rw [rawAttributes_c_iflag, clearBits_and_disjoint _ _ _ (by decide) (by decide)]
    exact or_and_subset _ _ _ (by decide)
  · intro flag hflag hd
    have hmask : IGNBRK ||| IGNPAR ||| BRKINT ||| PARMRK ||| ISTRIP ||| INLCR ||| IGNCR
        ||| ICRNL ||| IXON ||| IXOFF
        = (IGNBRK ||| IGNPAR)
          ||| (BRKINT ||| PARMRK ||| ISTRIP ||| INLCR ||| IGNCR ||| ICRNL ||| IXON ||| IXOFF) := by
      decide
    rw [hmask] at hd
    obtain ⟨ha, hm⟩ := and_or_eq_zero _ _ _ hd
    rw [rawAttributes_c_iflag, clearBits_and_disjoint _ _ _ hflag hm]
    exact or_and_disjoint _ _ _ ha
  · intro flag hflag hd
    rw [rawAttributes_c_oflag]
    exact clearBits_and_disjoint _ _ _ hflag hd
  · intro flag hflag hd
    have hmask : ISIG ||| ICANON ||| ECHO ||| IEXTEN = ISIG ||| (ICANON ||| IEXTEN ||| ECHO) := by
      decide
    rw [hmask] at hd
    obtain ⟨hi, hm⟩ := and_or_eq_zero _ _ _ hd
    rw [rawAttributes_c_lflag]
    split_ifs
    · rw [clearBits_and_disjoint _ _ _ hflag hi]
      exact clearBits_and_disjoint _ _ _ hflag hm
    · exact clearBits_and_disjoint _ _ _ hflag hm
  · intro i h1 h2 h3 h4 h5
    rw [rawAttributes_c_cc]
    simp [h1, h2, h3, h4, h5]

/-- C10 as stated fails: `IGNBRK` and `IGNPAR` are not among the flags the
claim names, yet raw mode turns them on: they are off in the cooked
attributes and on in the attributes derived from them. -/
theorem C10_counterexample :
    cookedAttrs.c_iflag &&& IGNBRK = 0 ∧ cookedAttrs.c_iflag &&& IGNPAR = 0 ∧
    (rawAttributes noOptions cookedAttrs).c_iflag &&& IGNBRK = IGNBRK ∧
    (rawAttributes noOptions cookedAttrs).c_iflag &&& IGNPAR = IGNPAR ∧
    IGNBRK ≠ 0 ∧ IGNPAR ≠ 0 := by
  decide

/-! ## Properties of the process-wide restore state -/

theorem afterWrites_restore (w : World) (k : Nat) (bytes : List Byte) :
    (w.afterWrites k bytes).restoreCore = w.restoreCore ∧
    (w.afterWrites k bytes).systemRestoreEscape = w.systemRestoreEscape :=
  ⟨rfl, rfl⟩

theorem tcsetattr_restore (w : World) (fd : Int) (t : Termios) :
    (tcsetattr w fd t).restoreCore = w.restoreCore ∧
    (tcsetattr w fd t).systemRestoreEscape = w.systemRestoreEscape := by
  unfold tcsetattr
  split <;> exact ⟨rfl, rfl⟩

theorem close_restore (w : World) (fd : Int) :
    (close w fd).restoreCore = w.restoreCore ∧
    (close w fd).systemRestoreEscape = w.systemRestoreEscape := by
  unfold close
  split_ifs <;> exact ⟨rfl, rfl⟩

theorem openDevTty_restore (w : World) :
    (openDevTty w).2.restoreCore = w.restoreCore ∧
    (openDevTty w).2.systemRestoreEscape = w.systemRestoreEscape := by
  unfold openDevTty
  split <;> exact ⟨rfl, rfl⟩

theorem integration_free_restore (w : World) (s : ZTerminalPrivate) :
    (integration_free w s).restoreCore = w.restoreCore ∧
    (integration_free w s).systemRestoreEscape = w.systemRestoreEscape := by
  unfold integration_free
  split_ifs
  · exact close_restore w s.fd
  · exact ⟨rfl, rfl⟩

theorem integration_write_small (env : Env) (fuel : Nat) (w : World) (s : ZTerminalPrivate)
    (data : List Byte) (h : (s.output_buffer ++ data).length ≤ 512) :
    integration_write env fuel data w s
      = some (w, { s with output_buffer := s.output_buffer ++ data }) := by
  have h' : ¬ (s.output_buffer ++ data).length > 512 := by omega
  simp only [integration_write, h', if_false]

theorem integration_write_big (env : Env) (fuel : Nat) (w : World) (s : ZTerminalPrivate)
    (data : List Byte) (h : 512 < (s.output_buffer ++ data).length) :
    integration_write env fuel data w s
      = integration_flush env fuel w { s with output_buffer := s.output_buffer ++ data } := by
  have h' : (s.output_buffer ++ data).length > 512 := h
  simp only [integration_write, h', if_true]

/-- What the callbacks of one engine entry point can do: write calls, and
possibly mark the descriptor bad. -/
theorem runIntegration_result (env : Env) (fuel : Nat) :
    ∀ (calls : List IntegrationCall) (w : World) (s : ZTerminalPrivate)
      (w' : World) (s' : ZTerminalPrivate),
      runIntegration env fuel calls w s = some (w', s') →
      ∃ k bytes, w' = w.afterWrites k bytes ∧ (s'.fd = s.fd ∨ s'.fd = -1) := by
  intro calls
  induction calls with
  | nil =>
    intro w s w' s' h
    simp only [runIntegration, Option.some.injEq, Prod.mk.injEq] at h
    obtain ⟨rfl, rfl⟩ := h
    exact ⟨0, [], (World.afterWrites_zero _).symm, Or.inl rfl⟩
  | cons c cs ih =>
    intro w s w' s' h
    have step : ∀ (w1 : World) (s1 : ZTerminalPrivate),
        (∃ k bytes, w1 = w.afterWrites k bytes ∧ (s1.fd = s.fd ∨ s1.fd = -1)) →
        runIntegration env fuel cs w1 s1 = some (w', s') →
        ∃ k bytes, w' = w.afterWrites k bytes ∧ (s'.fd = s.fd ∨ s'.fd = -1) := by
      intro w1 s1 h1 h2
      obtain ⟨k1, b1, rfl, hfd1⟩ := h1
      obtain ⟨k2, b2, rfl, hfd2⟩ := ih _ _ _ _ h2
      refine ⟨k1 + k2, b1 ++ b2, World.afterWrites_afterWrites _ _ _ _ _, ?_⟩
      rcases hfd2 with h | h
      · rw [h]; exact hfd1
      · exact Or.inr h
    cases c with
    | write data =>
      simp only [runIntegration] at h
      cases hr : integration_write env fuel data w s with
      | none => simp [hr] at h
      | some r =>
        obtain ⟨w1, s1⟩ := r
        simp only [hr] at h
        refine step w1 s1 ?_ h
        by_cases hlen : 512 < (s.output_buffer ++ data).length
        · rw [integration_write_big env fuel w s data hlen] at hr
          obtain ⟨k, bytes, hw, hs, _⟩ := integration_flush_result env fuel w _ w1 s1 hr
          refine ⟨k, bytes, hw, ?_⟩
          rcases hs with rfl | rfl
          · exact Or.inl rfl
          · exact Or.inr rfl
        · rw [integration_write_small env fuel w s data (by omega)] at hr
          simp only [Option.some.injEq, Prod.mk.injEq] at hr
          obtain ⟨rfl, rfl⟩ := hr
          exact ⟨0, [], (World.afterWrites_zero _).symm, Or.inl rfl⟩
    | flush =>
      simp only [runIntegration] at h
      cases hr : integration_flush env fuel w s with
      | none => simp [hr] at h
      | some r =>
        obtain ⟨w1, s1⟩ := r
        simp only [hr] at h
        refine step w1 s1 ?_ h
        obtain ⟨k, bytes, hw, hs, _⟩ := integration_flush_result env fuel w _ w1 s1 hr
        refine ⟨k, bytes, hw, ?_⟩
        rcases hs with rfl | rfl
        · exact Or.inl rfl
        · exact Or.inr rfl
    | request_callback =>
      simp only [runIntegration] at h
      exact step w (integration_request_callback s)
        ⟨0, [], (World.afterWrites_zero _).symm, Or.inl rfl⟩ h
    | is_bad =>
      simp only [runIntegration] at h
      exact step w s ⟨0, [], (World.afterWrites_zero _).symm, Or.inl rfl⟩ h

theorem registerSystemRestore_of_inited (w : World) (s : ZTerminalPrivate)
    (h : w.systemRestoreInited = true) : registerSystemRestore w s = w := by
  simp [registerSystemRestore, h]

/-- Once the restore state is registered, `commonStuff` leaves it alone. -/
theorem commonStuff_restore (env : Env) (fuel : Nat) (options : Options)
    (w : World) (s : ZTerminalPrivate) (b : Bool) (w' : World) (s' : ZTerminalPrivate)
    (hin : w.systemRestoreInited = true)
    (h : commonStuff env fuel options w s = some (b, w', s')) :
    w'.restoreCore = w.restoreCore ∧ w'.systemRestoreEscape = w.systemRestoreEscape := by
  unfold commonStuff at h
  simp only [] at h
  split at h
  · cases h
  · rename_i w4 s7 hr
    simp only [Option.some.injEq, Prod.mk.injEq] at h
    obtain ⟨_, rfl, _⟩ := h
    obtain ⟨k, bytes, rfl, _⟩ := runIntegration_result _ _ _ _ _ _ _ hr
    have hreg : ∀ s0, registerSystemRestore { w with engines := w.engines + 1 } s0
        = { w with engines := w.engines + 1 } :=
      fun s0 => registerSystemRestore_of_inited _ s0 hin
    rw [hreg]
    exact ⟨((afterWrites_restore _ k bytes).1.trans (tcsetattr_restore _ _ _).1),
      ((afterWrites_restore _ k bytes).2.trans (tcsetattr_restore _ _ _).2)⟩

theorem setup_restore (env : Env) (fuel : Nat) (options : Options)
    (w : World) (s : ZTerminalPrivate) (b : Bool) (w' : World) (s' : ZTerminalPrivate)
    (hin : w.systemRestoreInited = true)
    (h : setup env fuel options w s = some (b, w', s')) :
    w'.restoreCore = w.restoreCore ∧ w'.systemRestoreEscape = w.systemRestoreEscape := by
  unfold setup at h
  simp only [] at h
  split_ifs at h
  · simp only [Option.some.injEq, Prod.mk.injEq] at h
    obtain ⟨_, rfl, _⟩ := h
    exact ⟨rfl, rfl⟩
  · exact commonStuff_restore _ _ _ _ _ _ _ _ hin h
  · exact commonStuff_restore _ _ _ _ _ _ _ _ hin h
  · exact commonStuff_restore _ _ _ _ _ _ _ _ hin h
  · simp only [Option.some.injEq, Prod.mk.injEq] at h
    obtain ⟨_, rfl, _⟩ := h
    exact openDevTty_restore w
  · have ho := openDevTty_restore w
    have hin' : (openDevTty w).2.systemRestoreInited = true := by
      have := congrArg RestoreCore.inited ho.1
      simpa [World.restoreCore, hin] using this
    obtain ⟨h1, h2⟩ := commonStuff_restore _ _ _ _ _ _ _ _ hin' h
    exact ⟨h1.trans ho.1, h2.trans ho.2⟩

theorem setupFromControllingTerminal_restore (env : Env) (fuel : Nat) (options : Options)
    (w : World) (s : ZTerminalPrivate) (b : Bool) (w' : World) (s' : ZTerminalPrivate)
    (hin : w.systemRestoreInited = true)
    (h : setupFromControllingTerminal env fuel options w s = some (b, w', s')) :
    w'.restoreCore = w.restoreCore ∧ w'.systemRestoreEscape = w.systemRestoreEscape := by
  unfold setupFromControllingTerminal at h
  simp only [] at h
  split_ifs at h
  · simp only [Option.some.injEq, Prod.mk.injEq] at h
    obtain ⟨_, rfl, _⟩ := h
    exact ⟨rfl, rfl⟩
  · simp only [Option.some.injEq, Prod.mk.injEq] at h
    obtain ⟨_, rfl, _⟩ := h
    exact openDevTty_restore w
  · have ho := openDevTty_restore w
    have hin' : (openDevTty w).2.systemRestoreInited = true := by
      have := congrArg RestoreCore.inited ho.1
      simpa [World.restoreCore, hin] using this
    obtain ⟨h1, h2⟩ := commonStuff_restore _ _ _ _ _ _ _ _ hin' h
    exact ⟨h1.trans ho.1, h2.trans ho.2⟩

/-- `deinitTerminal` never touches the registration data, and it leaves the
restore escape alone when the session's descriptor is not the registered one. -/
theorem deinitTerminal_restore (env : Env) (fuel : Nat)
    (w : World) (s : ZTerminalPrivate) (w' : World) (s' : ZTerminalPrivate)
    (h : deinitTerminal env fuel w s = some (w', s')) :
    w'.restoreCore = w.restoreCore ∧
    (w.systemRestoreFd ≠ -1 → s.fd ≠ w.systemRestoreFd →
      w'.systemRestoreEscape = w.systemRestoreEscape) := by
  unfold deinitTerminal termpaint_terminal_free_with_restore at h
  cases h1 : runIntegration env fuel env.engine.reset_attributes w s with
  | none => simp [h1] at h
  | some r1 =>
    obtain ⟨w1, s1⟩ := r1
    simp only [h1] at h
    cases h2 : runIntegration env fuel env.engine.free_with_restore w1 s1 with
    | none => simp [h2] at h
    | some r2 =>
      obtain ⟨w2, s2⟩ := r2
      simp only [h2, Option.some.injEq, Prod.mk.injEq] at h
      obtain ⟨rfl, rfl⟩ := h
      obtain ⟨k1, b1, rfl, hfd1⟩ := runIntegration_result _ _ _ _ _ _ _ h1
      obtain ⟨k2, b2, rfl, hfd2⟩ := runIntegration_result _ _ _ _ _ _ _ h2
      have hfree := integration_free_restore ((w.afterWrites k1 b1).afterWrites k2 b2) s2
      have hcore : (integration_free ((w.afterWrites k1 b1).afterWrites k2 b2) s2).restoreCore
          = w.restoreCore := hfree.1
      have hesc : (integration_free ((w.afterWrites k1 b1).afterWrites k2 b2) s2).systemRestoreEscape
          = w.systemRestoreEscape := hfree.2
      have hfdw : (integration_free ((w.afterWrites k1 b1).afterWrites k2 b2) s2).systemRestoreFd
          = w.systemRestoreFd := congrArg RestoreCore.fd hcore
      constructor
      · split_ifs
        · exact ((tcsetattr_restore _ _ _).1).trans hcore
        · exact ((tcsetattr_restore _ _ _).1).trans hcore
      · intro hreg hne
        have hs2 : s2.fd ≠ w.systemRestoreFd := by
          rcases hfd2 with e2 | e2
          · rcases hfd1 with e1 | e1
            · rw [e2, e1]; exact hne
            · rw [e2, e1]; exact fun hc => hreg hc.symm
          · rw [e2]; exact fun hc => hreg hc.symm
        rw [hfdw, if_neg hs2]
        exact ((tcsetattr_restore _ _ _).2).trans hesc

/-- C7, as the code has it: once the restore state is registered (on a valid
descriptor), no operation on a session (`setup` or
`setupFromControllingTerminal`, succeeding or failing,
`maybeSystemTerminalSetup`, `deinitTerminal`) changes the registered
descriptor or the original-attributes snapshot, and the state stays
registered; the restore escape sequence is unchanged as well by the two
set-up functions, and by `maybeSystemTerminalSetup` and `deinitTerminal`
whenever the session's descriptor differs from the registered one. -/
theorem C7_other_session_keeps_restore_data (env : Env) (fuel : Nat) (op : SessionOp)
    (w : World) (s : ZTerminalPrivate) (w' : World) (s' : ZTerminalPrivate)
    (hin : w.systemRestoreInited = true) (hfd : w.systemRestoreFd ≠ -1)
    (h : op.run env fuel w s = some (w', s')) :
    w'.systemRestoreInited = true ∧ w'.systemRestoreFd ≠ -1 ∧
    w'.systemRestoreFd = w.systemRestoreFd ∧
    w'.systemOriginalTerminalAttributes = w.systemOriginalTerminalAttributes ∧
    (op.isSetup = true ∨ s.fd ≠ w.systemRestoreFd →
      w'.systemRestoreEscape = w.systemRestoreEscape) := by
  have key : w'.restoreCore = w.restoreCore ∧
      (op.isSetup = true ∨ s.fd ≠ w.systemRestoreFd →
        w'.systemRestoreEscape = w.systemRestoreEscape) := by
    cases op with
    | setup options =>
      simp only [SessionOp.run] at h
      cases hr : setup env fuel options w s with
      | none => simp [hr] at h
      | some r =>
        obtain ⟨b, w1, s1⟩ := r
        simp only [hr, Option.some.injEq, Prod.mk.injEq] at h
        obtain ⟨rfl, rfl⟩ := h
        have := setup_restore _ _ _ _ _ _ _ _ hin hr
        exact ⟨this.1, fun _ => this.2⟩
    | setupFromControllingTerminal options =>
      simp only [SessionOp.run] at h
      cases hr : setupFromControllingTerminal env fuel options w s with
      | none => simp [hr] at h
      | some r =>
        obtain ⟨b, w1, s1⟩ := r
        simp only [hr, Option.some.injEq, Prod.mk.injEq] at h
        obtain ⟨rfl, rfl⟩ := h
        have := setupFromControllingTerminal_restore _ _ _ _ _ _ _ _ hin hr
        exact ⟨this.1, fun _ => this.2⟩
    | maybeSystemTerminalSetup =>
      simp only [SessionOp.run, Option.some.injEq, Prod.mk.injEq] at h
      obtain ⟨rfl, rfl⟩ := h
      unfold maybeSystemTerminalSetup
      split_ifs with hc
      · exact ⟨rfl, fun hor => by
          rcases hor with h0 | h0
          · simp [SessionOp.isSetup] at h0
          · exact absurd hc h0⟩
      · exact ⟨rfl, fun _ => rfl⟩
    | deinitTerminal =>
      simp only [SessionOp.run] at h
      have := deinitTerminal_restore _ _ _ _ _ _ h
      refine ⟨this.1, fun hor => ?_⟩
      rcases hor with h0 | h0
      · simp [SessionOp.isSetup] at h0
      · exact this.2 hfd h0
  obtain ⟨hcore, hesc⟩ := key
  have h1 : w'.systemRestoreInited = w.systemRestoreInited := congrArg RestoreCore.inited hcore
  have h2 : w'.systemRestoreFd = w.systemRestoreFd := congrArg RestoreCore.fd hcore
  have h3 : w'.systemOriginalTerminalAttributes = w.systemOriginalTerminalAttributes :=
    congrArg RestoreCore.original hcore
  exact ⟨h1.trans hin, by rw [h2]; exact hfd, h2, h3, hesc⟩

/-- The registration block takes effect when nothing is registered yet. -/
theorem commonStuff_registers (env : Env) (fuel : Nat) (options : Options)
    (w : World) (s : ZTerminalPrivate) (b : Bool) (w' : World) (s' : ZTerminalPrivate)
    (hin : w.systemRestoreInited = false)
    (h : commonStuff env fuel options w s = some (b, w', s')) :
    w'.systemRestoreInited = true ∧ w'.systemRestoreFd = s.fd ∧
    w'.syncHandlers = w.syncHandlers ++ installedHandlers := by
  unfold commonStuff at h
  simp only [] at h
  split at h
  · cases h
  · rename_i w4 s7 hr
    simp only [Option.some.injEq, Prod.mk.injEq] at h
    obtain ⟨_, rfl, _⟩ := h
    obtain ⟨k, bytes, rfl, _⟩ := runIntegration_result _ _ _ _ _ _ _ hr
    simp only [registerSystemRestore, hin, if_true]
    unfold tcsetattr
    split <;> split <;> exact ⟨rfl, rfl, rfl⟩

/-- A first successful `setup` registers the restore state on a valid descriptor
and installs the handlers. -/
theorem setup_registers (env : Env) (fuel : Nat) (options : Options)
    (w : World) (s : ZTerminalPrivate) (w' : World) (s' : ZTerminalPrivate)
    (hin : w.systemRestoreInited = false)
    (h : setup env fuel options w s = some (true, w', s')) :
    w'.systemRestoreInited = true ∧ w'.systemRestoreFd ≠ -1 ∧
    w'.syncHandlers = w.syncHandlers ++ installedHandlers := by
  unfold setup at h
  simp only [] at h
  split_ifs at h with h0 h1 h2 h3 h4
  · simp at h
  · obtain ⟨a, b, c⟩ := commonStuff_registers _ _ _ _ _ _ _ _ hin h
    exact ⟨a, by rw [b]; show (0 : Int) ≠ -1; decide, c⟩
  · obtain ⟨a, b, c⟩ := commonStuff_registers _ _ _ _ _ _ _ _ hin h
    exact ⟨a, by rw [b]; show (1 : Int) ≠ -1; decide, c⟩
  · obtain ⟨a, b, c⟩ := commonStuff_registers _ _ _ _ _ _ _ _ hin h
    exact ⟨a, by rw [b]; show (2 : Int) ≠ -1; decide, c⟩
  · simp at h
  · have ho := openDevTty_restore w
    have hin' : (openDevTty w).2.systemRestoreInited = false := by
      have := congrArg RestoreCore.inited ho.1
      simpa [World.restoreCore, hin] using this
    have hh : (openDevTty w).2.syncHandlers = w.syncHandlers := by
      unfold openDevTty
      split <;> rfl
    obtain ⟨a, b, c⟩ := commonStuff_registers _ _ _ _ _ _ _ _ hin' h
    exact ⟨a, by rw [b]; exact h4, by rw [c, hh]⟩

/-- C7 at a concrete input: after the first session was set up on standard
input, a second session opens the controlling terminal (descriptor `3`). -/
theorem C7_witness :
    registeredWorld.systemRestoreInited = true ∧ registeredWorld.systemRestoreFd ≠ -1 ∧
    ∃ w' s',
      (SessionOp.setupFromControllingTerminal noOptions).run acceptAllEnv 4
        registeredWorld (freshSession 2) = some (w', s') ∧
      w'.systemRestoreInited = true ∧ w'.systemRestoreFd ≠ -1 ∧
      w'.systemRestoreFd = registeredWorld.systemRestoreFd ∧
      w'.systemOriginalTerminalAttributes = registeredWorld.systemOriginalTerminalAttributes ∧
      ((SessionOp.setupFromControllingTerminal noOptions).isSetup = true
          ∨ (freshSession 2).fd ≠ registeredWorld.systemRestoreFd →
        w'.systemRestoreEscape = registeredWorld.systemRestoreEscape) :=
  ⟨rfl, by decide, _, _, rfl,
   C7_other_session_keeps_restore_data acceptAllEnv 4
     (SessionOp.setupFromControllingTerminal noOptions) registeredWorld (freshSession 2)
     _ _ rfl (by decide) rfl⟩

/-- C7 as stated fails: a second session that also picks standard input has
the registered descriptor number, and its `maybeSystemTerminalSetup` and its
`deinitTerminal` overwrite the restore escape sequence of the first. -/
theorem C7_counterexample :
    registeredWorld.systemRestoreFd = 0 ∧
    registeredWorld.systemRestoreEscape = some [0x1b, 0x5b, 0x30, 0x6d, 0x0d, 0x0a] ∧
    ∃ w2 s2 w3 s3,
      secondSessionOnStdin = some (true, w2, s2) ∧ s2.fd = 0 ∧
      w2.systemRestoreEscape = some [0x1b, 0x5b, 0x30, 0x6d, 0x0d, 0x0a] ∧
      (maybeSystemTerminalSetup acceptAllEnv w2 s2).systemRestoreEscape = some [0x0d, 0x0a] ∧
      deinitTerminal acceptAllEnv 4 w2 s2 = some (w3, s3) ∧
      w3.systemRestoreEscape = some [] :=
  ⟨rfl, rfl, _, _, _, _, rfl, rfl, rfl, rfl, rfl, rfl⟩

/-! ## Properties of the stop and resume handlers -/

theorem deliver_stop (env : Env) (sig : Signal) (w : World)
    (hh : w.syncHandlers = installedHandlers) (hs : sig.isStop = true) :
    deliver env sig w = suspendHandler env w := by
  cases sig <;> simp [Signal.isStop] at hs <;>
    simp [deliver, hh, installedHandlers, runHandler]

theorem deliver_cont (env : Env) (w : World) (hh : w.syncHandlers = installedHandlers) :
    deliver env Signal.SIGCONT w = resumeHandler w := by
  simp [deliver, hh, installedHandlers, runHandler]

/-- The stop handler saves the current attributes and applies the original
ones; nothing but the attributes, the snapshot and the wire changes. -/
theorem suspendHandler_spec (env : Env) (w : World) (dev : Nat)
    (hfd : fdState w w.systemRestoreFd = FdState.tty dev) :
    (suspendHandler env w).termAttrs
        = Function.update w.termAttrs dev w.systemOriginalTerminalAttributes ∧
    (suspendHandler env w).systemPresuspendTerminalAttributes = w.termAttrs dev ∧
    (suspendHandler env w).fds = w.fds ∧
    (suspendHandler env w).systemRestoreFd = w.systemRestoreFd ∧
    (suspendHandler env w).syncHandlers = w.syncHandlers ∧
    (suspendHandler env w).systemOriginalTerminalAttributes
        = w.systemOriginalTerminalAttributes := by
  have hfd1 : fdState { w with systemPresuspendTerminalAttributes := w.termAttrs dev }
      w.systemRestoreFd = FdState.tty dev := hfd
  simp only [suspendHandler, tcgetattr, hfd, tcsetattr, hfd1]
  split <;> exact ⟨rfl, rfl, rfl, rfl, rfl, rfl⟩

theorem resumeHandler_spec (w : World) (dev : Nat)
    (hfd : fdState w w.systemRestoreFd = FdState.tty dev) :
    (resumeHandler w).termAttrs
        = Function.update w.termAttrs dev w.systemPresuspendTerminalAttributes ∧
    (resumeHandler w).fds = w.fds ∧
    (resumeHandler w).systemRestoreFd = w.systemRestoreFd ∧
    (resumeHandler w).syncHandlers = w.syncHandlers ∧
    (resumeHandler w).systemOriginalTerminalAttributes
        = w.systemOriginalTerminalAttributes := by
  simp [resumeHandler, tcsetattr, hfd]

theorem fdState_congr (w w' : World) (fd : Int) (h : w'.fds = w.fds) :
    fdState w' fd = fdState w fd := by
  simp only [fdState, h]

/-- One stop handler run followed by one resume handler run. -/
theorem suspend_resume (env : Env) (w : World) (dev : Nat)
    (hfd : fdState w w.systemRestoreFd = FdState.tty dev) :
    (resumeHandler (suspendHandler env w)).termAttrs = w.termAttrs ∧
    (resumeHandler (suspendHandler env w)).fds = w.fds ∧
    (resumeHandler (suspendHandler env w)).systemRestoreFd = w.systemRestoreFd ∧
    (resumeHandler (suspendHandler env w)).syncHandlers = w.syncHandlers := by
  obtain ⟨a1, a2, a3, a4, a5, _⟩ := suspendHandler_spec env w dev hfd
  have hfd' : fdState (suspendHandler env w) (suspendHandler env w).systemRestoreFd
      = FdState.tty dev := by
    rw [a4, fdState_congr _ _ _ a3]; exact hfd
  obtain ⟨b1, b2, b3, b4, _⟩ := resumeHandler_spec (suspendHandler env w) dev hfd'
  refine ⟨?_, b2.trans a3, b3.trans a4, b4.trans a5⟩
  rw [b1, a1, a2]
  simp

theorem stopResumeCycles_attrs (env : Env) (dev : Nat) :
    ∀ (stops : List Signal) (w : World),
      w.syncHandlers = installedHandlers →
      fdState w w.systemRestoreFd = FdState.tty dev →
      (∀ sig ∈ stops, sig.isStop = true) →
      (stopResumeCycles env stops w).termAttrs = w.termAttrs := by
  intro stops
  induction stops with
  | nil => intro w _ _ _; rfl
  | cons sig rest ih =>
    intro w hh hfd hstops
    have hs : sig.isStop = true := hstops sig (List.mem_cons_self _ _)
    obtain ⟨c1, c2, c3, c4⟩ := suspend_resume env w dev hfd
    obtain ⟨_, _, a3, a4, a5, _⟩ := suspendHandler_spec env w dev hfd
    have hcycle : deliver env Signal.SIGCONT (deliver env sig w)
        = resumeHandler (suspendHandler env w) := by
      rw [deliver_stop env sig w hh hs, deliver_cont env _ (a5.trans hh)]
    simp only [stopResumeCycles, hcycle]
    rw [ih _ (c4.trans hh) (by rw [c3, fdState_congr _ _ _ c2]; exact hfd)
      (fun sg hsg => hstops sg (List.mem_cons_of_mem _ hsg))]
    exact c1

/-- What the handlers do achieve: with the handlers of `commonStuff` installed
and the registered descriptor referring to a terminal, a stop signal
(`SIGTSTP`, `SIGTTIN`, `SIGTTOU`) sets that terminal to the original
attributes, and the `SIGCONT` that follows it puts back exactly the
attributes that were in effect when the stop handler ran; so after every
resume handler run of a sequence in which each `SIGCONT` directly follows one
stop signal, the attributes of every terminal are those in effect before
the sequence. -/
theorem stop_then_resume_restores_attributes (env : Env) (w : World) (dev : Nat)
    (stops : List Signal)
    (hh : w.syncHandlers = installedHandlers)
    (hfd : fdState w w.systemRestoreFd = FdState.tty dev)
    (hstops : ∀ sig ∈ stops, sig.isStop = true) :
    (stopResumeCycles env stops w).termAttrs = w.termAttrs ∧
    ∀ sig, sig.isStop = true →
      (deliver env sig w).termAttrs dev = w.systemOriginalTerminalAttributes ∧
      (deliver env Signal.SIGCONT (deliver env sig w)).termAttrs = w.termAttrs := by
  refine ⟨stopResumeCycles_attrs env dev stops w hh hfd hstops, fun sig hs => ?_⟩
  obtain ⟨a1, _, _, _, a5, _⟩ := suspendHandler_spec env w dev hfd
  rw [deliver_stop env sig w hh hs, deliver_cont env _ (a5.trans hh)]
  exact ⟨by rw [a1]; simp, (suspend_resume env w dev hfd).1⟩

/-- Stop and resume at a concrete input: the world after the first set-up,
then `SIGTSTP`, `SIGCONT`, `SIGTTIN`, `SIGCONT`. -/
theorem stop_then_resume_restores_attributes_example :
    registeredWorld.syncHandlers = installedHandlers ∧
    fdState registeredWorld registeredWorld.systemRestoreFd = FdState.tty 0 ∧
    (stopResumeCycles acceptAllEnv [Signal.SIGTSTP, Signal.SIGTTIN] registeredWorld).termAttrs
      = registeredWorld.termAttrs ∧
    ∀ sig, sig.isStop = true →
      (deliver acceptAllEnv sig registeredWorld).termAttrs 0
        = registeredWorld.systemOriginalTerminalAttributes ∧
      (deliver acceptAllEnv Signal.SIGCONT (deliver acceptAllEnv sig registeredWorld)).termAttrs
        = registeredWorld.termAttrs :=
  ⟨rfl, rfl,
   stop_then_resume_restores_attributes acceptAllEnv registeredWorld 0
     [Signal.SIGTSTP, Signal.SIGTTIN] rfl rfl (by decide)⟩

/-- C8 fails on the code: after the first set-up (handlers installed, the
registered descriptor `0` a terminal in raw mode) the process is running and
receives `SIGCONT` without having been stopped.  `resumeHandler` applies
`systemPresuspendTerminalAttributes`, which no stop handler has written yet,
so the terminal gets the zero-filled attributes of the static instead of the
raw-mode attributes in effect (`c_iflag` `0x4005`, `c_lflag` `0xa30`, `VMIN`
`1`).  When a stop signal precedes the `SIGCONT`, the raw-mode attributes
are back. -/
theorem C8_resume_without_stop_applies_zeroed_snapshot :
    registeredWorld.syncHandlers = installedHandlers ∧
    fdState registeredWorld registeredWorld.systemRestoreFd = FdState.tty 0 ∧
    (registeredWorld.termAttrs 0).c_iflag = 0x4005 ∧
    (registeredWorld.termAttrs 0).c_lflag = 0xa30 ∧
    (registeredWorld.termAttrs 0).c_cflag = 0xbf ∧
    (registeredWorld.termAttrs 0).c_cc VMIN = 1 ∧
    registeredWorld.systemPresuspendTerminalAttributes = Termios.zero ∧
    (deliver acceptAllEnv Signal.SIGCONT registeredWorld).termAttrs 0 = Termios.zero ∧
    ((deliver acceptAllEnv Signal.SIGCONT registeredWorld).termAttrs 0).c_iflag = 0 ∧
    ((deliver acceptAllEnv Signal.SIGCONT registeredWorld).termAttrs 0).c_lflag = 0 ∧
    ((deliver acceptAllEnv Signal.SIGCONT registeredWorld).termAttrs 0).c_cflag = 0 ∧
    ((deliver acceptAllEnv Signal.SIGCONT registeredWorld).termAttrs 0).c_cc VMIN = 0 ∧
    ((deliver acceptAllEnv Signal.SIGCONT
        (deliver acceptAllEnv Signal.SIGTSTP registeredWorld)).termAttrs 0).c_lflag = 0xa30 :=
  ⟨rfl, rfl, rfl, rfl, rfl, rfl, rfl, rfl, rfl, rfl, rfl, rfl, rfl⟩

/-- A second stop handler run before the resume overwrites the pre-stop
snapshot with the original attributes, which the resume handler then
applies: after `SIGTSTP`, `SIGTTIN`, `SIGCONT` the terminal has the cooked
attributes (`c_lflag` `0x8a3b`) and not the raw ones (`0xa30`). -/
theorem resume_after_two_stops_applies_original :
    (registeredWorld.termAttrs 0).c_lflag = 0xa30 ∧
    ((deliver acceptAllEnv Signal.SIGCONT
        (deliver acceptAllEnv Signal.SIGTTIN
          (deliver acceptAllEnv Signal.SIGTSTP registeredWorld))).termAttrs 0).c_lflag
      = 0x8a3b :=
  ⟨rfl, rfl⟩

/-! ## Properties of the deferred callback -/

/-- A successful `commonStuff` leaves the callback timer single-shot. -/
theorem commonStuff_singleShot (env : Env) (fuel : Nat) (options : Options)
    (w : World) (s : ZTerminalPrivate) (b : Bool) (w' : World) (s' : ZTerminalPrivate)
    (h : commonStuff env fuel options w s = some (b, w', s')) :
    s'.callbackTimerSingleShot = true := by
  unfold commonStuff at h
  simp only [] at h
  split at h
  · cases h
  · simp only [Option.some.injEq, Prod.mk.injEq] at h
    obtain ⟨_, _, rfl⟩ := h
    rfl

end Tui
